import Mathlib

set_option maxHeartbeats 2000000

namespace Twob

/-- Modulus of a Rust u64 cast (the source ends balance reconciliation with as-u64 casts). -/
def U64_MOD : Nat := 2 ^ 64

/-- Inclusive integer range, mirroring a Rust a..=b loop (empty when a > b). -/
def rangeIncl (a b : Nat) : List Nat := List.range' a (b + 1 - a)

/-- Subtraction that fails (like a Rust debug-mode u64/u128 subtraction) on underflow. -/
def checkedSub (a b : Nat) : Option Nat := if b ≤ a then some (a - b) else none

/-- Division that fails when the divisor is zero (a Rust integer division panics there). -/
def checkedDiv (a b : Nat) : Option Nat := if b = 0 then none else some (a / b)

/-- The fields of the twob_anchor Market account read by this client (u128 flows,
u64 window interval, modelled as Nat with overflow assumed absent). -/
structure Market where
  id : Nat
  base_flow : Nat
  quote_flow : Nat
  end_slot_interval : Nat
  deriving DecidableEq

/-- The twob_anchor Bookkeeping account: the venue-wide accrual checkpoint. -/
structure Bookkeeping where
  base_per_quote : Nat
  quote_per_base : Nat
  last_update_slot : Nat
  slots_without_trade : Nat
  deriving DecidableEq

/-- The twob_anchor LiquidityPosition account. -/
structure LiquidityPosition where
  base_balance : Nat
  quote_balance : Nat
  base_debt : Nat
  quote_debt : Nat
  base_flow_u64 : Nat
  quote_flow_u64 : Nat
  last_update_slot : Nat
  slots_without_trade_snapshot : Nat
  base_per_quote_snapshot : Nat
  quote_per_base_snapshot : Nat
  deriving DecidableEq

/-- Exit journal for one window index: per-step exit amounts (the on-ledger fixed
array is modelled as an index function). -/
structure Exits where
  base_exits : Nat → Nat
  quote_exits : Nat → Nat

/-- Result of get_liquidity_position_balances (u64 fields in the source). -/
structure LiquidityPositionBalances where
  base_balance : Nat
  quote_balance : Nat
  base_debt : Nat
  quote_debt : Nat
  deriving DecidableEq

/-- MarketState as fetched by fetch_market_state. -/
structure MarketState where
  market : Market
  bookkeeping : Bookkeeping
  current_slot : Nat

/-- The mutable state of one integral-reconstruction loop inside
get_liquidity_position_balances: the running integral, the running aggregate
flows and the slot of the last processed step. -/
structure WalkState where
  acc : Nat
  market_base_flow : Nat
  market_quote_flow : Nat
  last_update_slot : Nat
  deriving DecidableEq

/-- Reading one base-exit entry: a missing journal account (Err) contributes zero. -/
def exitBaseAmt (ex : Option Exits) (i : Nat) : Nat :=
  match ex with
  | some e => e.base_exits i
  | none => 0

/-- Reading one quote-exit entry: a missing journal account (Err) contributes zero. -/
def exitQuoteAmt (ex : Option Exits) (i : Nat) : Nat :=
  match ex with
  | some e => e.quote_exits i
  | none => 0

/-- Ledger slot of step i inside window w:
i * end_slot_interval + w * end_slot_interval * ARRAY_LENGTH. -/
def stepSlot (ESI AL w i : Nat) : Nat := i * ESI + w * ESI * AL

/-- The precision-scaled flow ratio of the current segment.  For the
base-per-quote loop (bq = true) it is PF * base_flow / quote_flow, for the
quote-per-base loop it is the reciprocal ratio; the division happens before
scaling by the segment length, exactly as in the source expression. -/
def ratioTerm (bq : Bool) (PF : Nat) (s : WalkState) : Nat :=
  if bq then PF * s.market_base_flow / s.market_quote_flow
  else PF * s.market_quote_flow / s.market_base_flow

/-- One iteration of the inner step loop (for i in start_index..=end_index) of the
integral reconstruction in get_liquidity_position_balances: compute the step slot
and segment length, advance last_update_slot, skip (continue) when either running
flow is zero, otherwise add the segment increment at the pre-exit flows and only
then subtract this step's recorded exits from the running flows. -/
def innerStep (bq : Bool) (PF ESI AL w : Nat) (ex : Option Exits) (s : WalkState) (i : Nat) :
    WalkState :=
  let slot := stepSlot ESI AL w i
  let slot_diff := slot - s.last_update_slot
  if s.market_base_flow = 0 ∨ s.market_quote_flow = 0 then
    { s with last_update_slot := slot }
  else
    { acc := s.acc + ratioTerm bq PF s * slot_diff
      market_base_flow := s.market_base_flow - exitBaseAmt ex i
      market_quote_flow := s.market_quote_flow - exitQuoteAmt ex i
      last_update_slot := slot }

/-- The trailing partial segment of the current window: integrate from the last
processed step up to current_slot, skipping when either running flow is zero.
It does not advance last_update_slot (the source does not either). -/
def finalSeg (bq : Bool) (PF current_slot : Nat) (s : WalkState) : WalkState :=
  let slot_diff := current_slot - s.last_update_slot
  if s.market_base_flow = 0 ∨ s.market_quote_flow = 0 then s
  else { s with acc := s.acc + ratioTerm bq PF s * slot_diff }

/-- start_index of the step loop for window w: one past the checkpoint's sub-window
offset in the checkpoint's window, 0 in every later window. -/
def windowStartIdx (ESI AL last_update_index bk_last_update_slot w : Nat) : Nat :=
  if w = last_update_index then
    (bk_last_update_slot - last_update_index * ESI * AL) / ESI + 1
  else 0

/-- end_index of the step loop for window w: the current sub-window offset in the
current window, ARRAY_LENGTH - 1 in every earlier window. -/
def windowStopIdx (ESI AL current_slot_index current_slot w : Nat) : Nat :=
  if w = current_slot_index then
    (current_slot - current_slot_index * ESI * AL) / ESI
  else AL - 1

/-- One iteration of the outer window loop
(for exits_index in last_update_index..=current_slot_index): fetch the window's
exit journal, run the step loop, and in the current window also integrate the
trailing partial segment up to current_slot. -/
def windowBody (bq : Bool) (PF ESI AL last_update_index current_slot_index
    bk_last_update_slot current_slot : Nat) (exits : Nat → Option Exits)
    (s : WalkState) (w : Nat) : WalkState :=
  let ex := exits w
  let s1 := (rangeIncl (windowStartIdx ESI AL last_update_index bk_last_update_slot w)
      (windowStopIdx ESI AL current_slot_index current_slot w)).foldl
      (innerStep bq PF ESI AL w ex) s
  if w = current_slot_index then finalSeg bq PF current_slot s1 else s1

/-- Reconstruction of one accrual integral (base_per_quote when bq = true,
quote_per_base when bq = false) from the bookkeeping checkpoint up to
current_slot, walking the exit journals window by window, as in the two
corresponding blocks of get_liquidity_position_balances.  PF is the
BOOKKEEPING_PRECISION_FACTOR constant and AL the ARRAY_LENGTH constant (their
numeric values live in the crate's constants module, which only re-exports
them here; both are kept as parameters). -/
def reconstruct_integral (bq : Bool) (PF AL : Nat) (market : Market) (bookkeeping : Bookkeeping)
    (exits : Nat → Option Exits) (current_slot : Nat) : Nat :=
  let ESI := market.end_slot_interval
  let last_update_index := bookkeeping.last_update_slot / AL / ESI
  let current_slot_index := current_slot / AL / ESI
  let s0 : WalkState :=
    { acc := if bq then bookkeeping.base_per_quote else bookkeeping.quote_per_base
      market_base_flow := market.base_flow
      market_quote_flow := market.quote_flow
      last_update_slot := bookkeeping.last_update_slot }
  ((rangeIncl last_update_index current_slot_index).foldl
      (windowBody bq PF ESI AL last_update_index current_slot_index
        bookkeeping.last_update_slot current_slot exits) s0).acc

/-- get_liquidity_position_balances from src/lib.rs: settle a liquidity position's
base/quote balances and debts at current_slot from the stored position, the
bookkeeping checkpoint, the market aggregate flows and the exit journals
(exits w = none models a journal account that cannot be read).  The final
as-u64 casts of the source are the % U64_MOD reductions. -/
def get_liquidity_position_balances (PF AL : Nat) (liquidity_position : LiquidityPosition)
    (bookkeeping : Bookkeeping) (market : Market) (exits : Nat → Option Exits)
    (current_slot : Nat) : LiquidityPositionBalances :=
  let inactive_slots :=
    bookkeeping.slots_without_trade - liquidity_position.slots_without_trade_snapshot
  let accumulated_base_outflow := PF
    * (current_slot - liquidity_position.last_update_slot - inactive_slots)
    * liquidity_position.base_flow_u64
  let accumulated_quote_outflow := PF
    * (current_slot - liquidity_position.last_update_slot - inactive_slots)
    * liquidity_position.quote_flow_u64
  let base_per_quote := reconstruct_integral true PF AL market bookkeeping exits current_slot
  let quote_per_base := reconstruct_integral false PF AL market bookkeeping exits current_slot
  let accumulated_base_inflow :=
    (base_per_quote - liquidity_position.base_per_quote_snapshot)
      * liquidity_position.quote_flow_u64
  let accumulated_quote_inflow :=
    (quote_per_base - liquidity_position.quote_per_base_snapshot)
      * liquidity_position.base_flow_u64
  let base_balance :=
    if accumulated_base_outflow > liquidity_position.base_balance + accumulated_base_inflow then 0
    else (liquidity_position.base_balance + accumulated_base_inflow - accumulated_base_outflow) / PF
  let base_debt :=
    if accumulated_base_outflow > liquidity_position.base_balance + accumulated_base_inflow then
      (accumulated_base_outflow - liquidity_position.base_balance - accumulated_base_inflow) / PF
    else 0
  let quote_balance :=
    if accumulated_quote_outflow > liquidity_position.quote_balance + accumulated_quote_inflow
      then 0
    else (liquidity_position.quote_balance + accumulated_quote_inflow
      - accumulated_quote_outflow) / PF
  let quote_debt :=
    if accumulated_quote_outflow > liquidity_position.quote_balance + accumulated_quote_inflow then
      (accumulated_quote_outflow - liquidity_position.quote_balance
        - accumulated_quote_inflow) / PF
    else 0
  { base_balance := base_balance % U64_MOD
    quote_balance := quote_balance % U64_MOD
    base_debt := base_debt % U64_MOD
    quote_debt := quote_debt % U64_MOD }

/-- An all-zero exit journal. -/
def zero_exits : Exits := { base_exits := fun _ => 0, quote_exits := fun _ => 0 }

/-- Replace every unreadable (missing) exit journal by an explicit all-zero one. -/
def fill_missing_exits (exits : Nat → Option Exits) : Nat → Option Exits :=
  fun w => some ((exits w).getD zero_exits)

/-- innerStep with the flow-ratio division checked: returns none exactly when the
division would execute with a zero divisor. -/
def innerStepDiv (bq : Bool) (PF ESI AL w : Nat) (ex : Option Exits) (s : WalkState) (i : Nat) :
    Option WalkState :=
  let slot := stepSlot ESI AL w i
  let slot_diff := slot - s.last_update_slot
  if s.market_base_flow = 0 ∨ s.market_quote_flow = 0 then
    some { s with last_update_slot := slot }
  else
    (checkedDiv (if bq then PF * s.market_base_flow else PF * s.market_quote_flow)
        (if bq then s.market_quote_flow else s.market_base_flow)).bind fun r =>
      some { acc := s.acc + r * slot_diff
             market_base_flow := s.market_base_flow - exitBaseAmt ex i
             market_quote_flow := s.market_quote_flow - exitQuoteAmt ex i
             last_update_slot := slot }

/-- finalSeg with the flow-ratio division checked. -/
def finalSegDiv (bq : Bool) (PF current_slot : Nat) (s : WalkState) : Option WalkState :=
  let slot_diff := current_slot - s.last_update_slot
  if s.market_base_flow = 0 ∨ s.market_quote_flow = 0 then some s
  else
    (checkedDiv (if bq then PF * s.market_base_flow else PF * s.market_quote_flow)
        (if bq then s.market_quote_flow else s.market_base_flow)).bind fun r =>
      some { s with acc := s.acc + r * slot_diff }

/-- windowBody with every flow-ratio division checked. -/
def windowBodyDiv (bq : Bool) (PF ESI AL last_update_index current_slot_index
    bk_last_update_slot current_slot : Nat) (exits : Nat → Option Exits)
    (s : WalkState) (w : Nat) : Option WalkState :=
  let ex := exits w
  ((rangeIncl (windowStartIdx ESI AL last_update_index bk_last_update_slot w)
      (windowStopIdx ESI AL current_slot_index current_slot w)).foldlM
      (innerStepDiv bq PF ESI AL w ex) s).bind fun s1 =>
    if w = current_slot_index then finalSegDiv bq PF current_slot s1 else some s1

/-- reconstruct_integral with every flow-ratio division checked: it returns none
exactly when some division along the walk would run with a zero divisor. -/
def reconstruct_integral_div (bq : Bool) (PF AL : Nat) (market : Market)
    (bookkeeping : Bookkeeping) (exits : Nat → Option Exits) (current_slot : Nat) :
    Option Nat :=
  let ESI := market.end_slot_interval
  let last_update_index := bookkeeping.last_update_slot / AL / ESI
  let current_slot_index := current_slot / AL / ESI
  let s0 : WalkState :=
    { acc := if bq then bookkeeping.base_per_quote else bookkeeping.quote_per_base
      market_base_flow := market.base_flow
      market_quote_flow := market.quote_flow
      last_update_slot := bookkeeping.last_update_slot }
  (((rangeIncl last_update_index current_slot_index).foldlM
      (windowBodyDiv bq PF ESI AL last_update_index current_slot_index
        bookkeeping.last_update_slot current_slot exits) s0)).map fun s => s.acc

/-- innerStep with every subtraction checked (a Rust debug build panics where this
returns none). -/
def innerStepChk (bq : Bool) (PF ESI AL w : Nat) (ex : Option Exits) (s : WalkState) (i : Nat) :
    Option WalkState :=
  let slot := stepSlot ESI AL w i
  (checkedSub slot s.last_update_slot).bind fun slot_diff =>
    if s.market_base_flow = 0 ∨ s.market_quote_flow = 0 then
      some { s with last_update_slot := slot }
    else
      (checkedSub s.market_base_flow (exitBaseAmt ex i)).bind fun nb =>
        (checkedSub s.market_quote_flow (exitQuoteAmt ex i)).bind fun nq =>
          some { acc := s.acc + ratioTerm bq PF s * slot_diff
                 market_base_flow := nb
                 market_quote_flow := nq
                 last_update_slot := slot }

/-- finalSeg with the slot subtraction checked. -/
def finalSegChk (bq : Bool) (PF current_slot : Nat) (s : WalkState) : Option WalkState :=
  (checkedSub current_slot s.last_update_slot).bind fun slot_diff =>
    if s.market_base_flow = 0 ∨ s.market_quote_flow = 0 then some s
    else some { s with acc := s.acc + ratioTerm bq PF s * slot_diff }

/-- windowStartIdx with its subtraction checked. -/
def windowStartIdxChk (ESI AL last_update_index bk_last_update_slot w : Nat) : Option Nat :=
  if w = last_update_index then
    (checkedSub bk_last_update_slot (last_update_index * ESI * AL)).map fun d => d / ESI + 1
  else some 0

/-- windowStopIdx with its subtractions checked. -/
def windowStopIdxChk (ESI AL current_slot_index current_slot w : Nat) : Option Nat :=
  if w = current_slot_index then
    (checkedSub current_slot (current_slot_index * ESI * AL)).map fun d => d / ESI
  else checkedSub AL 1

/-- windowBody with every subtraction checked. -/
def windowBodyChk (bq : Bool) (PF ESI AL last_update_index current_slot_index
    bk_last_update_slot current_slot : Nat) (exits : Nat → Option Exits)
    (s : WalkState) (w : Nat) : Option WalkState :=
  let ex := exits w
  (windowStartIdxChk ESI AL last_update_index bk_last_update_slot w).bind fun a =>
    (windowStopIdxChk ESI AL current_slot_index current_slot w).bind fun b =>
      ((rangeIncl a b).foldlM (innerStepChk bq PF ESI AL w ex) s).bind fun s1 =>
        if w = current_slot_index then finalSegChk bq PF current_slot s1 else some s1

/-- reconstruct_integral with every subtraction checked. -/
def reconstruct_integral_chk (bq : Bool) (PF AL : Nat) (market : Market)
    (bookkeeping : Bookkeeping) (exits : Nat → Option Exits) (current_slot : Nat) :
    Option Nat :=
  let ESI := market.end_slot_interval
  let last_update_index := bookkeeping.last_update_slot / AL / ESI
  let current_slot_index := current_slot / AL / ESI
  let s0 : WalkState :=
    { acc := if bq then bookkeeping.base_per_quote else bookkeeping.quote_per_base
      market_base_flow := market.base_flow
      market_quote_flow := market.quote_flow
      last_update_slot := bookkeeping.last_update_slot }
  (((rangeIncl last_update_index current_slot_index).foldlM
      (windowBodyChk bq PF ESI AL last_update_index current_slot_index
        bookkeeping.last_update_slot current_slot exits) s0)).map fun s => s.acc

/-- get_liquidity_position_balances with every subtraction checked: it returns
none exactly when some unchecked subtraction of the source would underflow. -/
def get_liquidity_position_balances_chk (PF AL : Nat)
    (liquidity_position : LiquidityPosition) (bookkeeping : Bookkeeping) (market : Market)
    (exits : Nat → Option Exits) (current_slot : Nat) : Option LiquidityPositionBalances :=
  (checkedSub bookkeeping.slots_without_trade
      liquidity_position.slots_without_trade_snapshot).bind fun inactive_slots =>
  (checkedSub current_slot liquidity_position.last_update_slot).bind fun since_update =>
  (checkedSub since_update inactive_slots).bind fun elapsed =>
  let accumulated_base_outflow := PF * elapsed * liquidity_position.base_flow_u64
  let accumulated_quote_outflow := PF * elapsed * liquidity_position.quote_flow_u64
  (reconstruct_integral_chk true PF AL market bookkeeping exits current_slot).bind
    fun base_per_quote =>
  (reconstruct_integral_chk false PF AL market bookkeeping exits current_slot).bind
    fun quote_per_base =>
  (checkedSub base_per_quote liquidity_position.base_per_quote_snapshot).bind fun dbpq =>
  (checkedSub quote_per_base liquidity_position.quote_per_base_snapshot).bind fun dqpb =>
  let accumulated_base_inflow := dbpq * liquidity_position.quote_flow_u64
  let accumulated_quote_inflow := dqpb * liquidity_position.base_flow_u64
  (if accumulated_base_outflow
      > liquidity_position.base_balance + accumulated_base_inflow then
    (checkedSub accumulated_base_outflow liquidity_position.base_balance).bind fun t =>
      (checkedSub t accumulated_base_inflow).map fun d => ((0 : Nat), d / PF)
  else
    (checkedSub (liquidity_position.base_balance + accumulated_base_inflow)
        accumulated_base_outflow).map fun v => (v / PF, (0 : Nat))).bind fun base_pair =>
  (if accumulated_quote_outflow
      > liquidity_position.quote_balance + accumulated_quote_inflow then
    (checkedSub accumulated_quote_outflow liquidity_position.quote_balance).bind fun t =>
      (checkedSub t accumulated_quote_inflow).map fun d => ((0 : Nat), d / PF)
  else
    (checkedSub (liquidity_position.quote_balance + accumulated_quote_inflow)
        accumulated_quote_outflow).map fun v => (v / PF, (0 : Nat))).bind fun quote_pair =>
  some { base_balance := base_pair.1 % U64_MOD
         quote_balance := quote_pair.1 % U64_MOD
         base_debt := base_pair.2 % U64_MOD
         quote_debt := quote_pair.2 % U64_MOD }

/-- Step of the verification walk for the exits-within-flows precondition: it
carries a Bool that stays true as long as every executed step's recorded exit
amounts are at most the running aggregate flows they are subtracted from. -/
def exitsOkStep (bq : Bool) (PF ESI AL w : Nat) (ex : Option Exits)
    (p : Bool × WalkState) (i : Nat) : Bool × WalkState :=
  let ok := p.1 &&
    (if p.2.market_base_flow = 0 ∨ p.2.market_quote_flow = 0 then true
     else decide (exitBaseAmt ex i ≤ p.2.market_base_flow)
       && decide (exitQuoteAmt ex i ≤ p.2.market_quote_flow))
  (ok, innerStep bq PF ESI AL w ex p.2 i)

/-- Window body of the exits-within-flows verification walk. -/
def exitsOkWindow (bq : Bool) (PF ESI AL last_update_index current_slot_index
    bk_last_update_slot current_slot : Nat) (exits : Nat → Option Exits)
    (p : Bool × WalkState) (w : Nat) : Bool × WalkState :=
  let ex := exits w
  let p1 := (rangeIncl (windowStartIdx ESI AL last_update_index bk_last_update_slot w)
      (windowStopIdx ESI AL current_slot_index current_slot w)).foldl
      (exitsOkStep bq PF ESI AL w ex) p
  if w = current_slot_index then (p1.1, finalSeg bq PF current_slot p1.2) else p1

/-- The exits-within-flows precondition of the reconstruction walk: every step's
recorded exit amounts are at most the running aggregate flows they are
subtracted from (steps skipped by the zero-flow guard subtract nothing). -/
def exits_within_flows (bq : Bool) (PF AL : Nat) (market : Market)
    (bookkeeping : Bookkeeping) (exits : Nat → Option Exits) (current_slot : Nat) : Bool :=
  let ESI := market.end_slot_interval
  let last_update_index := bookkeeping.last_update_slot / AL / ESI
  let current_slot_index := current_slot / AL / ESI
  let s0 : WalkState :=
    { acc := if bq then bookkeeping.base_per_quote else bookkeeping.quote_per_base
      market_base_flow := market.base_flow
      market_quote_flow := market.quote_flow
      last_update_slot := bookkeeping.last_update_slot }
  ((rangeIncl last_update_index current_slot_index).foldl
      (exitsOkWindow bq PF ESI AL last_update_index current_slot_index
        bookkeeping.last_update_slot current_slot exits) (true, s0)).1

/-- The decision produced by evaluate_position. -/
inductive PositionAction where
  | stop (reference_index : Nat)
  | updateFlows (base_flow quote_flow reference_index : Nat)
  deriving DecidableEq

/-- EvaluationResult of evaluate_position (the fetched snapshots are carried along). -/
structure EvaluationResult where
  action : PositionAction
  market_state : MarketState
  position : LiquidityPosition
  balances : LiquidityPositionBalances

/-- evaluate_position from src/bin/inventory-flow/position.rs, with the fetched
market state and position passed in explicitly (the source fetches them through
the ledger client): reconcile balances, then Stop when any debt is positive,
otherwise retarget both flows to balance / flow_divisor; both decisions carry
reference_index = current_slot / ARRAY_LENGTH / end_slot_interval. -/
def evaluate_position (PF AL : Nat) (market_state : MarketState)
    (position : LiquidityPosition) (exits : Nat → Option Exits) (flow_divisor : Nat) :
    EvaluationResult :=
  let reference_index :=
    market_state.current_slot / AL / market_state.market.end_slot_interval
  let balances := get_liquidity_position_balances PF AL position market_state.bookkeeping
    market_state.market exits market_state.current_slot
  let action :=
    if balances.base_debt > 0 ∨ balances.quote_debt > 0 then
      PositionAction.stop reference_index
    else
      PositionAction.updateFlows (balances.base_balance / flow_divisor)
        (balances.quote_balance / flow_divisor) reference_index
  { action := action, market_state := market_state, position := position, balances := balances }

/-- DelayConfig from src/bin/inventory-flow/config.rs (u128 fields). -/
structure DelayConfig where
  critical_threshold : Nat
  safe_threshold : Nat
  critical_delay_ms : Nat
  normal_delay_ms : Nat
  delay_scale_factor : Nat
  max_additional_slots : Nat
  deriving DecidableEq

/-- DelayConfig::default. -/
def defaultDelayConfig : DelayConfig :=
  { critical_threshold := 25
    safe_threshold := 10000
    critical_delay_ms := 100
    normal_delay_ms := 2000
    delay_scale_factor := 400
    max_additional_slots := 1000 }

/-- The slots_until_debt computation inside calculate_update_delay (reached only
when both market flows are nonzero); u64::MAX stands for the unbounded case. -/
def slots_until_debt (position : LiquidityPosition) (market : Market)
    (balances : LiquidityPositionBalances) : Nat :=
  let base_outflow := position.base_flow_u64
  let quote_outflow := position.quote_flow_u64
  let base_inflow := quote_outflow * market.base_flow / market.quote_flow
  let quote_inflow := base_outflow * market.quote_flow / market.base_flow
  if base_outflow > base_inflow then
    balances.base_balance / (base_outflow - base_inflow)
  else if quote_outflow > quote_inflow then
    balances.quote_balance / (quote_outflow - quote_inflow)
  else U64_MOD - 1

/-- The delay curve of calculate_update_delay as a function of the computed
slots-until-insolvency (the u128 value before the final as-u64 cast). -/
def delay_from_slots (delay_config : DelayConfig) (slots : Nat) : Nat :=
  if slots ≤ delay_config.critical_threshold then delay_config.critical_delay_ms
  else if slots ≤ delay_config.safe_threshold then delay_config.normal_delay_ms
  else
    (min slots (delay_config.safe_threshold + delay_config.max_additional_slots)
      - delay_config.safe_threshold) * delay_config.delay_scale_factor
      + delay_config.normal_delay_ms

/-- calculate_update_delay from src/bin/inventory-flow/position.rs; the returned
value is cast to u64 at the end. -/
def calculate_update_delay (position : LiquidityPosition) (market_state : MarketState)
    (balances : LiquidityPositionBalances) (delay_config : DelayConfig) : Nat :=
  if market_state.market.quote_flow = 0 ∨ market_state.market.base_flow = 0 then
    delay_config.normal_delay_ms % U64_MOD
  else
    delay_from_slots delay_config (slots_until_debt position market_state.market balances)
      % U64_MOD

/-- OptimalQuote from src/bin/oracle-flow/quote.rs. -/
structure OptimalQuote where
  base_flow : Nat
  quote_flow : Nat
  deriving DecidableEq

/-- should_update_quote from src/bin/oracle-flow/quote.rs: cross-multiplied ratio
comparison in basis points against a threshold, with the zero-flow edge cases. -/
def should_update_quote (current_base_flow current_quote_flow : Nat)
    (optimal : OptimalQuote) (threshold_bps : Nat) : Bool :=
  if current_base_flow = 0 ∨ current_quote_flow = 0 then
    decide (optimal.base_flow > 0) && decide (optimal.quote_flow > 0)
  else if optimal.base_flow = 0 ∨ optimal.quote_flow = 0 then
    false
  else
    let current_cross := current_base_flow * optimal.quote_flow
    let optimal_cross := optimal.base_flow * current_quote_flow
    let larger := if current_cross > optimal_cross then current_cross else optimal_cross
    let smaller := if current_cross > optimal_cross then optimal_cross else current_cross
    let deviation_bps := (larger - smaller) * 10000 / smaller
    decide (deviation_bps > threshold_bps)

/-- MAX_FLOW_REDUCTION_ATTEMPTS from src/bin/oracle-flow/main.rs. -/
def MAX_FLOW_REDUCTION_ATTEMPTS : Nat := 200

/-- The floored f64 product flow * FLOW_REDUCTION_FACTOR (= 0.99) of reduce_flow,
modelled by exact rational arithmetic; reduce_flow is proved below for every
such approximation, so the properties do not depend on rounding details. -/
def approx99 (flow : Nat) : Nat := flow * 99 / 100

/-- reduce_flow from src/bin/oracle-flow/main.rs: a flow of at most 1 is returned
unchanged, otherwise the floored product is clamped into [1, flow - 1].  The
floored multiplication is passed in as approx (see approx99). -/
def reduce_flow (approx : Nat → Nat) (flow : Nat) : Nat :=
  if flow ≤ 1 then flow
  else min (max (approx flow) 1) (flow - 1)

/-- Outcome of one transaction simulation, as classified by
execute_update_flows_with_backoff: success, the specific
LiquidityPositionUnhealthy condition, or any other error. -/
inductive SimResult where
  | ok
  | unhealthy
  | other
  deriving DecidableEq

/-- The possible outcomes of the backoff loop: a committed update, the permanent
bail-out when the flows cannot be reduced further, the immediate bail-out on a
non-retriable simulation error, and exhaustion of the attempt budget. -/
inductive BackoffResult where
  | committed (base_flow quote_flow : Nat)
  | no_progress (base_flow quote_flow : Nat)
  | non_retriable
  | exhausted (base_flow quote_flow : Nat)
  deriving DecidableEq

/-- Whether a backoff outcome is one of the two permanent failures. -/
def is_permanent_failure : BackoffResult → Bool
  | .no_progress _ _ => true
  | .exhausted _ _ => true
  | _ => false

/-- The retry loop of execute_update_flows_with_backoff: the simulation oracle
sim classifies each candidate pair; on unhealthy both flows are shrunk with
reduce_flow, bailing out permanently when neither changes; the fuel is the
remaining attempt budget. -/
def backoff_loop (sim : Nat → Nat → SimResult) (approx : Nat → Nat) :
    Nat → Nat → Nat → BackoffResult
  | 0, b, q => .exhausted b q
  | fuel + 1, b, q =>
    match sim b q with
    | .ok => .committed b q
    | .other => .non_retriable
    | .unhealthy =>
      let nb := reduce_flow approx b
      let nq := reduce_flow approx q
      if nb = b ∧ nq = q then .no_progress b q
      else backoff_loop sim approx fuel nb nq

/-- execute_update_flows_with_backoff from src/bin/oracle-flow/main.rs: both
requested flows are floored at 1, then the retry loop runs with the configured
attempt budget. -/
def execute_update_flows_with_backoff (sim : Nat → Nat → SimResult) (approx : Nat → Nat)
    (base_flow quote_flow : Nat) : BackoffResult :=
  backoff_loop sim approx MAX_FLOW_REDUCTION_ATTEMPTS (max base_flow 1) (max quote_flow 1)

/-- The sequence of candidate flow pairs submitted to simulation by the backoff
loop, in order (one entry per simulate call). -/
def backoff_trace (sim : Nat → Nat → SimResult) (approx : Nat → Nat) :
    Nat → Nat → Nat → List (Nat × Nat)
  | 0, _, _ => []
  | fuel + 1, b, q =>
    (b, q) ::
      match sim b q with
      | .ok => []
      | .other => []
      | .unhealthy =>
        let nb := reduce_flow approx b
        let nq := reduce_flow approx q
        if nb = b ∧ nq = q then [] else backoff_trace sim approx fuel nb nq

/-- The literal reading of the claimed backoff behaviour: every attempted
candidate pair in which either flow has already reached 1 is the last attempt. -/
def halts_when_either_is_one : List (Nat × Nat) → Bool
  | [] => true
  | [_] => true
  | p :: rest =>
    if p.1 = 1 ∨ p.2 = 1 then false else halts_when_either_is_one rest

/-- An all-zero liquidity position, used as a concrete witness input. -/
def zeroPosition : LiquidityPosition := ⟨0, 0, 0, 0, 0, 0, 0, 0, 0, 0⟩

/-- An all-zero bookkeeping checkpoint, used as a concrete witness input. -/
def zeroBookkeeping : Bookkeeping := ⟨0, 0, 0, 0⟩

/-- A concrete market-state snapshot with no aggregate flow, used as a witness input. -/
def zeroMarketState : MarketState :=
  { market := ⟨0, 0, 0, 1⟩, bookkeeping := zeroBookkeeping, current_slot := 0 }

/-- The claim's closed-form outflow: precision_factor * (current_slot -
last_update_slot - inactive_units) * flow, with inactive_units =
slots_without_trade - slots_without_trade_snapshot. -/
def claimed_outflow (PF : Nat) (lp : LiquidityPosition) (bk : Bookkeeping)
    (current_slot flow : Nat) : Nat :=
  PF * (current_slot - lp.last_update_slot
    - (bk.slots_without_trade - lp.slots_without_trade_snapshot)) * flow

/-- The claim's base inflow: (reconstructed base-per-quote integral - snapshot) *
quote flow rate of the position. -/
def claimed_base_inflow (PF AL : Nat) (lp : LiquidityPosition) (bk : Bookkeeping)
    (market : Market) (exits : Nat → Option Exits) (current_slot : Nat) : Nat :=
  (reconstruct_integral true PF AL market bk exits current_slot
    - lp.base_per_quote_snapshot) * lp.quote_flow_u64

/-- The claim's quote inflow: (reconstructed quote-per-base integral - snapshot) *
base flow rate of the position. -/
def claimed_quote_inflow (PF AL : Nat) (lp : LiquidityPosition) (bk : Bookkeeping)
    (market : Market) (exits : Nat → Option Exits) (current_slot : Nat) : Nat :=
  (reconstruct_integral false PF AL market bk exits current_slot
    - lp.quote_per_base_snapshot) * lp.base_flow_u64

/-- The per-step condition checked by the exits-within-flows verification walk. -/
def exitsOkCond (ex : Option Exits) (s : WalkState) (i : Nat) : Bool :=
  if s.market_base_flow = 0 ∨ s.market_quote_flow = 0 then true
  else decide (exitBaseAmt ex i ≤ s.market_base_flow)
    && decide (exitQuoteAmt ex i ≤ s.market_quote_flow)

lemma exitBaseAmt_fill (ex0 : Option Exits) (i : Nat) :
    exitBaseAmt (some (ex0.getD zero_exits)) i = exitBaseAmt ex0 i := by
  cases ex0 <;> rfl

lemma exitQuoteAmt_fill (ex0 : Option Exits) (i : Nat) :
    exitQuoteAmt (some (ex0.getD zero_exits)) i = exitQuoteAmt ex0 i := by
  cases ex0 <;> rfl

lemma innerStep_fill (bq : Bool) (PF ESI AL w : Nat) (ex0 : Option Exits) :
    innerStep bq PF ESI AL w (some (ex0.getD zero_exits)) = innerStep bq PF ESI AL w ex0 := by
  funext s i
  unfold innerStep
  rw [exitBaseAmt_fill, exitQuoteAmt_fill]

lemma windowBody_fill (bq : Bool) (PF ESI AL li ci bl cs : Nat) (exits : Nat → Option Exits) :
    windowBody bq PF ESI AL li ci bl cs (fill_missing_exits exits) =
      windowBody bq PF ESI AL li ci bl cs exits := by
  funext s w
  simp only [windowBody, fill_missing_exits, innerStep_fill]

lemma reconstruct_integral_fill (bq : Bool) (PF AL : Nat) (market : Market)
    (bookkeeping : Bookkeeping) (exits : Nat → Option Exits) (current_slot : Nat) :
    reconstruct_integral bq PF AL market bookkeeping (fill_missing_exits exits) current_slot =
      reconstruct_integral bq PF AL market bookkeeping exits current_slot := by
  simp only [reconstruct_integral, windowBody_fill]

/-- C1: for every input, the reconciled balances returned by
get_liquidity_position_balances are mutually exclusive with the reconciled debts
per token side: base_balance * base_debt = 0 and quote_balance * quote_debt = 0
(a side never carries both a positive balance and a positive debt).  This holds
for all inputs, in particular for all inputs satisfying the function's
arithmetic preconditions. -/
theorem c1_balance_debt_mutually_exclusive (PF AL : Nat)
    (liquidity_position : LiquidityPosition) (bookkeeping : Bookkeeping) (market : Market)
    (exits : Nat → Option Exits) (current_slot : Nat) :
    (get_liquidity_position_balances PF AL liquidity_position bookkeeping market exits
          current_slot).base_balance *
        (get_liquidity_position_balances PF AL liquidity_position bookkeeping market exits
          current_slot).base_debt = 0 ∧
      (get_liquidity_position_balances PF AL liquidity_position bookkeeping market exits
          current_slot).quote_balance *
        (get_liquidity_position_balances PF AL liquidity_position bookkeeping market exits
          current_slot).quote_debt = 0 := by
  simp only [get_liquidity_position_balances]
  constructor <;> (split <;> simp)

/-- C8: reconciliation treats an unreadable (missing) exit journal exactly as a
journal of all-zero exits: replacing every missing journal by an explicit
all-zero one yields the same ReconciledBalances, so a missing window record is
not an error and does not change the result. -/
theorem c8_missing_exits_treated_as_zero (PF AL : Nat)
    (liquidity_position : LiquidityPosition) (bookkeeping : Bookkeeping) (market : Market)
    (exits : Nat → Option Exits) (current_slot : Nat) :
    get_liquidity_position_balances PF AL liquidity_position bookkeeping market
        (fill_missing_exits exits) current_slot =
      get_liquidity_position_balances PF AL liquidity_position bookkeeping market exits
        current_slot := by
  unfold get_liquidity_position_balances
  rw [reconstruct_integral_fill, reconstruct_integral_fill]

/-- C3: evaluate_position returns Stop exactly when the reconciled base or quote
debt is nonzero, and otherwise UpdateFlows with base_flow = base_balance /
flow_divisor and quote_flow = quote_balance / flow_divisor; both decisions carry
the unrounded window index current_slot / ARRAY_LENGTH / end_slot_interval. -/
theorem c3_evaluate_position_decision (PF AL flow_divisor : Nat)
    (market_state : MarketState) (position : LiquidityPosition) (exits : Nat → Option Exits)
    (balances : LiquidityPositionBalances)
    (hb : balances = get_liquidity_position_balances PF AL position market_state.bookkeeping
      market_state.market exits market_state.current_slot) :
    ((balances.base_debt ≠ 0 ∨ balances.quote_debt ≠ 0) →
      (evaluate_position PF AL market_state position exits flow_divisor).action =
        PositionAction.stop
          (market_state.current_slot / AL / market_state.market.end_slot_interval)) ∧
    (balances.base_debt = 0 → balances.quote_debt = 0 →
      (evaluate_position PF AL market_state position exits flow_divisor).action =
        PositionAction.updateFlows (balances.base_balance / flow_divisor)
          (balances.quote_balance / flow_divisor)
          (market_state.current_slot / AL / market_state.market.end_slot_interval)) := by
  subst hb
  unfold evaluate_position
  constructor
  · intro h
    have hpos : (get_liquidity_position_balances PF AL position market_state.bookkeeping
        market_state.market exits market_state.current_slot).base_debt > 0 ∨
        (get_liquidity_position_balances PF AL position market_state.bookkeeping
          market_state.market exits market_state.current_slot).quote_debt > 0 := by
      rcases h with h | h
      · exact Or.inl (Nat.pos_of_ne_zero h)
      · exact Or.inr (Nat.pos_of_ne_zero h)
    simp only [if_pos hpos]
  · intro h1 h2
    have hneg : ¬ ((get_liquidity_position_balances PF AL position market_state.bookkeeping
        market_state.market exits market_state.current_slot).base_debt > 0 ∨
        (get_liquidity_position_balances PF AL position market_state.bookkeeping
          market_state.market exits market_state.current_slot).quote_debt > 0) := by
      rw [h1, h2]
      simp
    simp only [if_neg hneg]

/-- C3 witness: at a concrete all-zero input the evaluator takes the
UpdateFlows branch with the reconciled balances divided by the flow divisor. -/
theorem c3_evaluate_position_decision_witness :
    (evaluate_position 1 4 zeroMarketState zeroPosition (fun _ => none) 5).action =
      PositionAction.updateFlows 0 0 0 :=
  (c3_evaluate_position_decision 1 4 5 zeroMarketState zeroPosition (fun _ => none) _ rfl).2
    (by decide) (by decide)

/-- C9: should_update_quote is invariant under scaling both current flows by the
same positive constant k: it depends only on the ratio of the current flows, not
on their magnitude. -/
theorem c9_should_update_quote_scale_invariant (current_base_flow current_quote_flow k : Nat)
    (optimal : OptimalQuote) (threshold_bps : Nat) (hk : 0 < k) :
    should_update_quote (k * current_base_flow) (k * current_quote_flow) optimal threshold_bps =
      should_update_quote current_base_flow current_quote_flow optimal threshold_bps := by
  simp only [should_update_quote]
  by_cases h0 : current_base_flow = 0 ∨ current_quote_flow = 0
  · have h0k : k * current_base_flow = 0 ∨ k * current_quote_flow = 0 := by
      rcases h0 with h | h
      · exact Or.inl (by rw [h, Nat.mul_zero])
      · exact Or.inr (by rw [h, Nat.mul_zero])
    rw [if_pos h0, if_pos h0k]
  · have h0k : ¬ (k * current_base_flow = 0 ∨ k * current_quote_flow = 0) := by
      push_neg at h0 ⊢
      exact ⟨Nat.mul_ne_zero (Nat.pos_iff_ne_zero.mp hk) h0.1,
        Nat.mul_ne_zero (Nat.pos_iff_ne_zero.mp hk) h0.2⟩
    rw [if_neg h0, if_neg h0k]
    by_cases hopt : optimal.base_flow = 0 ∨ optimal.quote_flow = 0
    · rw [if_pos hopt, if_pos hopt]
    · rw [if_neg hopt, if_neg hopt]
      have hL : k * current_base_flow * optimal.quote_flow =
          k * (current_base_flow * optimal.quote_flow) := Nat.mul_assoc _ _ _
      have hR : optimal.base_flow * (k * current_quote_flow) =
          k * (optimal.base_flow * current_quote_flow) := by ring
      rw [hL, hR]
      by_cases hgt : current_base_flow * optimal.quote_flow
          > optimal.base_flow * current_quote_flow
      · have hgtk : k * (current_base_flow * optimal.quote_flow)
            > k * (optimal.base_flow * current_quote_flow) :=
          Nat.mul_lt_mul_of_pos_left hgt hk
        rw [if_pos hgt, if_pos hgtk, if_pos hgt, if_pos hgtk, ← Nat.mul_sub, Nat.mul_assoc,
          Nat.mul_div_mul_left _ _ hk]
      · have hgtk : ¬ (k * (current_base_flow * optimal.quote_flow)
            > k * (optimal.base_flow * current_quote_flow)) := by
          intro hcon
          exact hgt (Nat.lt_of_mul_lt_mul_left hcon)
        rw [if_neg hgt, if_neg hgtk, if_neg hgt, if_neg hgtk, ← Nat.mul_sub, Nat.mul_assoc,
          Nat.mul_div_mul_left _ _ hk]

/-- C9 witness: scaling the current flows 3:2 by k = 7 leaves the decision against
an optimal quote of 2:1 with a 50 bps threshold unchanged. -/
theorem c9_should_update_quote_scale_invariant_witness :
    0 < 7 ∧ should_update_quote (7 * 3) (7 * 2) ⟨2, 1⟩ 50 = should_update_quote 3 2 ⟨2, 1⟩ 50 :=
  ⟨by decide, c9_should_update_quote_scale_invariant 3 2 7 ⟨2, 1⟩ 50 (by decide)⟩

lemma delay_from_slots_lower (cfg : DelayConfig)
    (h : cfg.critical_delay_ms ≤ cfg.normal_delay_ms) (s : Nat) :
    cfg.critical_delay_ms ≤ delay_from_slots cfg s := by
  unfold delay_from_slots
  split_ifs with h1 h2
  · exact Nat.le_refl _
  · exact h
  · exact Nat.le_trans h (Nat.le_add_left _ _)

lemma delay_from_slots_upper (cfg : DelayConfig)
    (h : cfg.critical_delay_ms ≤ cfg.normal_delay_ms) (s : Nat) :
    delay_from_slots cfg s
      ≤ cfg.normal_delay_ms + cfg.max_additional_slots * cfg.delay_scale_factor := by
  unfold delay_from_slots
  split_ifs with h1 h2
  · exact Nat.le_trans h (Nat.le_add_right _ _)
  · exact Nat.le_add_right _ _
  · have hk : min s (cfg.safe_threshold + cfg.max_additional_slots) - cfg.safe_threshold
        ≤ cfg.max_additional_slots := by
      have hmin := Nat.sub_le_sub_right
        (Nat.min_le_right s (cfg.safe_threshold + cfg.max_additional_slots)) cfg.safe_threshold
      rwa [Nat.add_sub_cancel_left] at hmin
    calc (min s (cfg.safe_threshold + cfg.max_additional_slots) - cfg.safe_threshold)
          * cfg.delay_scale_factor + cfg.normal_delay_ms
        ≤ cfg.max_additional_slots * cfg.delay_scale_factor + cfg.normal_delay_ms :=
          Nat.add_le_add_right (Nat.mul_le_mul_right _ hk) _
      _ = cfg.normal_delay_ms + cfg.max_additional_slots * cfg.delay_scale_factor :=
          Nat.add_comm _ _

lemma delay_from_slots_mono (cfg : DelayConfig)
    (h : cfg.critical_delay_ms ≤ cfg.normal_delay_ms) {s1 s2 : Nat} (h12 : s1 ≤ s2) :
    delay_from_slots cfg s1 ≤ delay_from_slots cfg s2 := by
  unfold delay_from_slots
  by_cases hc2 : s2 ≤ cfg.critical_threshold
  · have hc1 : s1 ≤ cfg.critical_threshold := Nat.le_trans h12 hc2
    rw [if_pos hc1, if_pos hc2]
  · by_cases hs2 : s2 ≤ cfg.safe_threshold
    · rw [if_neg hc2, if_pos hs2]
      by_cases hc1 : s1 ≤ cfg.critical_threshold
      · rw [if_pos hc1]; exact h
      · rw [if_neg hc1, if_pos (Nat.le_trans h12 hs2)]
    · rw [if_neg hc2, if_neg hs2]
      by_cases hc1 : s1 ≤ cfg.critical_threshold
      · rw [if_pos hc1]; exact Nat.le_trans h (Nat.le_add_left _ _)
      · rw [if_neg hc1]
        by_cases hs1 : s1 ≤ cfg.safe_threshold
        · rw [if_pos hs1]; exact Nat.le_add_left _ _
        · rw [if_neg hs1]
          exact Nat.add_le_add_right
            (Nat.mul_le_mul_right _ (Nat.sub_le_sub_right (min_le_min h12 (Nat.le_refl _)) _)) _

/-- C5 counterexample: with the fixed delay configuration
(25, 10000, 5000, 2000, 400, 1000) — critical delay larger than the normal
delay — the delay is not monotone in slots-until-insolvency (10 slots gives
5000 ms but 100 slots gives 2000 ms) and is not bounded below by the critical
delay, so the claim fails for an arbitrary fixed configuration. -/
theorem c5_counterexample :
    ((10 : Nat) ≤ 100 ∧
      ¬ delay_from_slots ⟨25, 10000, 5000, 2000, 400, 1000⟩ 10
          ≤ delay_from_slots ⟨25, 10000, 5000, 2000, 400, 1000⟩ 100) ∧
    ¬ (⟨25, 10000, 5000, 2000, 400, 1000⟩ : DelayConfig).critical_delay_ms
        ≤ delay_from_slots ⟨25, 10000, 5000, 2000, 400, 1000⟩ 100 := by
  decide

/-- C5 (amended): provided the configuration has critical_delay_ms ≤
normal_delay_ms (as the default configuration does), calculate_update_delay —
viewed through delay_from_slots as a function of the computed
slots-until-insolvency, before the final u64 cast — is monotonically
non-decreasing, bounded below by critical_delay_ms and bounded above by
normal_delay_ms + max_additional_slots * delay_scale_factor; and
calculate_update_delay is exactly that function of slots_until_debt when both
market flows are nonzero. -/
theorem c5_delay_monotone_bounded (cfg : DelayConfig) (s1 s2 : Nat)
    (hcfg : cfg.critical_delay_ms ≤ cfg.normal_delay_ms) (h12 : s1 ≤ s2) :
    (delay_from_slots cfg s1 ≤ delay_from_slots cfg s2 ∧
      cfg.critical_delay_ms ≤ delay_from_slots cfg s1 ∧
      delay_from_slots cfg s1
        ≤ cfg.normal_delay_ms + cfg.max_additional_slots * cfg.delay_scale_factor) ∧
    ∀ (position : LiquidityPosition) (market_state : MarketState)
      (balances : LiquidityPositionBalances),
      calculate_update_delay position market_state balances cfg =
        if market_state.market.quote_flow = 0 ∨ market_state.market.base_flow = 0 then
          cfg.normal_delay_ms % U64_MOD
        else
          delay_from_slots cfg (slots_until_debt position market_state.market balances)
            % U64_MOD :=
  ⟨⟨delay_from_slots_mono cfg hcfg h12, delay_from_slots_lower cfg hcfg s1,
      delay_from_slots_upper cfg hcfg s1⟩,
    fun _ _ _ => rfl⟩

/-- C5 witness: the bounds and monotonicity at the default configuration between
50 and 20000 slots-until-insolvency. -/
theorem c5_delay_monotone_bounded_witness :
    (defaultDelayConfig.critical_delay_ms ≤ defaultDelayConfig.normal_delay_ms ∧
      (50 : Nat) ≤ 20000) ∧
    delay_from_slots defaultDelayConfig 50 ≤ delay_from_slots defaultDelayConfig 20000 ∧
    defaultDelayConfig.critical_delay_ms ≤ delay_from_slots defaultDelayConfig 50 ∧
    delay_from_slots defaultDelayConfig 50 ≤ defaultDelayConfig.normal_delay_ms
      + defaultDelayConfig.max_additional_slots * defaultDelayConfig.delay_scale_factor :=
  ⟨⟨by decide, by decide⟩,
    (c5_delay_monotone_bounded defaultDelayConfig 50 20000 (by decide) (by decide)).1⟩

/-- C6: along each reconstruction loop, the state after k+1 recorded steps is one
innerStep applied to the state after k steps, and whenever a step executes (the
running flows are nonzero) its integral increment is computed from the running
aggregate flows as they stood before that step's exits; only afterwards are the
step's recorded exit amounts subtracted from the running flows, so exits never
affect the segment that precedes them. -/
theorem c6_exits_applied_after_segment (bq : Bool) (PF ESI AL w : Nat) (ex : Option Exits)
    (idx : List Nat) (s : WalkState) (k : Nat) (hk : k < idx.length) :
    (idx.take (k + 1)).foldl (innerStep bq PF ESI AL w ex) s =
      innerStep bq PF ESI AL w ex ((idx.take k).foldl (innerStep bq PF ESI AL w ex) s)
        (idx.get ⟨k, hk⟩) ∧
    ∀ (t : WalkState) (i : Nat),
      ¬ (t.market_base_flow = 0 ∨ t.market_quote_flow = 0) →
      innerStep bq PF ESI AL w ex t i =
        { acc := t.acc + ratioTerm bq PF t * (stepSlot ESI AL w i - t.last_update_slot)
          market_base_flow := t.market_base_flow - exitBaseAmt ex i
          market_quote_flow := t.market_quote_flow - exitQuoteAmt ex i
          last_update_slot := stepSlot ESI AL w i } := by
  constructor
  · rw [List.take_succ, List.foldl_append, List.getElem?_eq_getElem hk,
      Option.toList_some, List.foldl_cons, List.foldl_nil, List.get_eq_getElem]
  · intro t i h
    unfold innerStep
    rw [if_neg h]

/-- C6 witness: the step characterisation at a concrete two-step walk with
nonzero running flows. -/
theorem c6_exits_applied_after_segment_witness :
    (([1, 2] : List Nat).take (1 + 1)).foldl (innerStep true 2 1 4 0 none) ⟨0, 3, 3, 0⟩ =
      innerStep true 2 1 4 0 none
        ((([1, 2] : List Nat).take 1).foldl (innerStep true 2 1 4 0 none) ⟨0, 3, 3, 0⟩)
        (([1, 2] : List Nat).get ⟨1, by decide⟩) :=
  (c6_exits_applied_after_segment true 2 1 4 0 none [1, 2] ⟨0, 3, 3, 0⟩ 1 (by decide)).1

lemma foldlM_eq_some_foldl {α β : Type} (fChk : α → β → Option α) (f : α → β → α)
    (H : ∀ s b, fChk s b = some (f s b)) :
    ∀ (l : List β) (s : α), List.foldlM fChk s l = some (List.foldl f s l) := by
  intro l
  induction l with
  | nil => intro s; rfl
  | cons b t ih =>
    intro s
    rw [List.foldlM_cons, H s b]
    show (some (f s b)).bind (fun s1 => List.foldlM fChk s1 t) = some (List.foldl f s (b :: t))
    rw [Option.some_bind, List.foldl_cons]
    exact ih (f s b)

lemma innerStepDiv_eq_some (bq : Bool) (PF ESI AL w : Nat) (ex : Option Exits)
    (s : WalkState) (i : Nat) :
    innerStepDiv bq PF ESI AL w ex s i = some (innerStep bq PF ESI AL w ex s i) := by
  simp only [innerStepDiv, innerStep, checkedDiv, ratioTerm]
  by_cases h : s.market_base_flow = 0 ∨ s.market_quote_flow = 0
  · rw [if_pos h, if_pos h]
  · rw [if_neg h, if_neg h]
    push_neg at h
    cases bq <;> simp [h.1, h.2]

lemma finalSegDiv_eq_some (bq : Bool) (PF current_slot : Nat) (s : WalkState) :
    finalSegDiv bq PF current_slot s = some (finalSeg bq PF current_slot s) := by
  simp only [finalSegDiv, finalSeg, checkedDiv, ratioTerm]
  by_cases h : s.market_base_flow = 0 ∨ s.market_quote_flow = 0
  · rw [if_pos h, if_pos h]
  · rw [if_neg h, if_neg h]
    push_neg at h
    cases bq <;> simp [h.1, h.2]

lemma windowBodyDiv_eq_some (bq : Bool) (PF ESI AL li ci bl cs : Nat)
    (exits : Nat → Option Exits) (s : WalkState) (w : Nat) :
    windowBodyDiv bq PF ESI AL li ci bl cs exits s w =
      some (windowBody bq PF ESI AL li ci bl cs exits s w) := by
  simp only [windowBodyDiv, windowBody]
  rw [foldlM_eq_some_foldl _ _ (innerStepDiv_eq_some bq PF ESI AL w (exits w)),
    Option.some_bind]
  by_cases h : w = ci
  · rw [if_pos h, if_pos h, finalSegDiv_eq_some]
  · rw [if_neg h, if_neg h]

lemma reconstruct_integral_div_eq_some (bq : Bool) (PF AL : Nat) (market : Market)
    (bookkeeping : Bookkeeping) (exits : Nat → Option Exits) (current_slot : Nat) :
    reconstruct_integral_div bq PF AL market bookkeeping exits current_slot =
      some (reconstruct_integral bq PF AL market bookkeeping exits current_slot) := by
  simp only [reconstruct_integral_div, reconstruct_integral]
  rw [foldlM_eq_some_foldl _ _
    (windowBodyDiv_eq_some bq PF market.end_slot_interval AL
      (bookkeeping.last_update_slot / AL / market.end_slot_interval)
      (current_slot / AL / market.end_slot_interval) bookkeeping.last_update_slot
      current_slot exits)]
  rfl

/-- C7: the accrual-integral reconstruction never divides by zero: the fully
division-checked reconstruction (which returns none exactly when a division
would execute with a zero divisor) always succeeds with the same value, and
every step — also the final partial segment — at which either running flow is
zero leaves the integral unchanged (contributes exactly zero), only advancing
the step cursor. -/
theorem c7_no_division_by_zero (bq : Bool) (PF AL : Nat) (market : Market)
    (bookkeeping : Bookkeeping) (exits : Nat → Option Exits) (current_slot : Nat) :
    reconstruct_integral_div bq PF AL market bookkeeping exits current_slot =
      some (reconstruct_integral bq PF AL market bookkeeping exits current_slot) ∧
    (∀ (ESI w : Nat) (ex : Option Exits) (s : WalkState) (i : Nat),
      s.market_base_flow = 0 ∨ s.market_quote_flow = 0 →
      innerStep bq PF ESI AL w ex s i = { s with last_update_slot := stepSlot ESI AL w i }) ∧
    (∀ s : WalkState, s.market_base_flow = 0 ∨ s.market_quote_flow = 0 →
      finalSeg bq PF current_slot s = s) := by
  refine ⟨reconstruct_integral_div_eq_some bq PF AL market bookkeeping exits current_slot,
    ?_, ?_⟩
  · intro ESI w ex s i h
    unfold innerStep
    rw [if_pos h]
  · intro s h
    unfold finalSeg
    rw [if_pos h]

/-- C7 witness: at a concrete state with zero quote flow, an inner step only
advances the cursor and adds nothing to the integral. -/
theorem c7_no_division_by_zero_witness :
    innerStep true 1000 2 4 0 none ⟨7, 5, 0, 1⟩ 3 = ⟨7, 5, 0, stepSlot 2 4 0 3⟩ :=
  (c7_no_division_by_zero true 1000 4 ⟨0, 0, 0, 2⟩ zeroBookkeeping (fun _ => none) 9).2.1
    2 0 none ⟨7, 5, 0, 1⟩ 3 (Or.inr rfl)

lemma reduce_flow_lt (approx : Nat → Nat) {flow : Nat} (h : 2 ≤ flow) :
    reduce_flow approx flow < flow := by
  unfold reduce_flow
  rw [if_neg (by omega)]
  have h1 : min (max (approx flow) 1) (flow - 1) ≤ flow - 1 := Nat.min_le_right _ _
  omega

lemma reduce_flow_pos (approx : Nat → Nat) {flow : Nat} (h : 1 ≤ flow) :
    1 ≤ reduce_flow approx flow := by
  unfold reduce_flow
  split_ifs with h1
  · exact h
  · exact Nat.le_min.mpr ⟨Nat.le_max_right _ _, by omega⟩

lemma reduce_flow_one (approx : Nat → Nat) : reduce_flow approx 1 = 1 := by
  unfold reduce_flow
  rw [if_pos (Nat.le_refl 1)]

lemma backoff_loop_unhealthy_failure (sim : Nat → Nat → SimResult) (approx : Nat → Nat)
    (hsim : ∀ x y, sim x y = SimResult.unhealthy) :
    ∀ (fuel b q : Nat), is_permanent_failure (backoff_loop sim approx fuel b q) = true := by
  intro fuel
  induction fuel with
  | zero => intro b q; rfl
  | succ n ih =>
    intro b q
    unfold backoff_loop
    rw [hsim b q]
    dsimp only
    split
    · rfl
    · exact ih _ _

lemma backoff_trace_length (sim : Nat → Nat → SimResult) (approx : Nat → Nat) :
    ∀ (fuel b q : Nat), (backoff_trace sim approx fuel b q).length ≤ fuel := by
  intro fuel
  induction fuel with
  | zero => intro b q; exact Nat.le_refl 0
  | succ n ih =>
    intro b q
    unfold backoff_trace
    cases sim b q with
    | ok => simp
    | other => simp
    | unhealthy =>
      dsimp only
      split
      · simp
      · simpa using ih (reduce_flow approx b) (reduce_flow approx q)

lemma backoff_trace_head (sim : Nat → Nat → SimResult) (approx : Nat → Nat)
    (fuel b q : Nat) : (backoff_trace sim approx (fuel + 1) b q).get? 0 = some (b, q) := rfl

lemma backoff_trace_get?_succ (sim : Nat → Nat → SimResult) (approx : Nat → Nat)
    (hsim : ∀ x y, sim x y = SimResult.unhealthy) :
    ∀ (fuel b q k : Nat), k + 1 < (backoff_trace sim approx fuel b q).length →
      (backoff_trace sim approx fuel b q).get? (k + 1) =
        ((backoff_trace sim approx fuel b q).get? k).map
          (fun p => (reduce_flow approx p.1, reduce_flow approx p.2)) := by
  intro fuel
  induction fuel with
  | zero =>
    intro b q k hk
    simp [backoff_trace] at hk
  | succ n ih =>
    intro b q k hk
    have htr : backoff_trace sim approx (n + 1) b q =
        (b, q) :: (if reduce_flow approx b = b ∧ reduce_flow approx q = q then []
          else backoff_trace sim approx n (reduce_flow approx b) (reduce_flow approx q)) := by
      conv_lhs => unfold backoff_trace
      rw [hsim b q]
    by_cases hstop : reduce_flow approx b = b ∧ reduce_flow approx q = q
    · rw [if_pos hstop] at htr
      rw [htr] at hk
      simp at hk
    · rw [if_neg hstop] at htr
      rw [htr] at hk ⊢
      cases k with
      | zero =>
        have hlen : 0 < (backoff_trace sim approx n (reduce_flow approx b)
            (reduce_flow approx q)).length := by
          simp only [List.length_cons] at hk
          omega
        have hn : n ≠ 0 := by
          intro h0
          rw [h0] at hlen
          simp [backoff_trace] at hlen
        obtain ⟨m, hm⟩ := Nat.exists_eq_succ_of_ne_zero hn
        rw [List.get?_cons_succ, List.get?_cons_zero, hm, backoff_trace_head]
        rfl
      | succ j =>
        have hk3 : j + 1 < (backoff_trace sim approx n (reduce_flow approx b)
            (reduce_flow approx q)).length := by
          simp only [List.length_cons] at hk
          omega
        rw [List.get?_cons_succ, List.get?_cons_succ]
        exact ih (reduce_flow approx b) (reduce_flow approx q) j hk3

lemma backoff_loop_both_one (sim : Nat → Nat → SimResult) (approx : Nat → Nat)
    (hsim : ∀ x y, sim x y = SimResult.unhealthy) (fuel : Nat) :
    backoff_loop sim approx (fuel + 1) 1 1 = BackoffResult.no_progress 1 1 := by
  unfold backoff_loop
  rw [hsim 1 1]
  dsimp only
  rw [if_pos ⟨reduce_flow_one approx, reduce_flow_one approx⟩]

/-- C4 counterexample: starting the always-unhealthy backoff loop at candidate
flows (1, 3), the first attempted pair already has a flow equal to 1, yet the
loop keeps shrinking the other flow for two further attempts instead of
terminating, so the loop does not terminate as soon as either flow reaches 1. -/
theorem c4_counterexample :
    halts_when_either_is_one
      (backoff_trace (fun _ _ => SimResult.unhealthy) approx99
        MAX_FLOW_REDUCTION_ATTEMPTS (max 1 1) (max 3 1)) = false := by
  decide

/-- C4 (amended): if every simulation reports the unhealthy-position condition,
the backoff submitter always ends in a permanent failure (never a commit) within
the attempt budget MAX_FLOW_REDUCTION_ATTEMPTS = 200; each retry replaces both
candidate flows by reduce_flow of the previous ones, which is strictly
decreasing for flows above 1 and never drops a positive flow below 1, and once
both flows have reached 1 the loop terminates immediately with the permanent
no-progress failure. -/
theorem c4_backoff_shrinks_to_failure (sim : Nat → Nat → SimResult) (approx : Nat → Nat)
    (base_flow quote_flow : Nat) (hsim : ∀ x y, sim x y = SimResult.unhealthy) :
    is_permanent_failure (execute_update_flows_with_backoff sim approx base_flow quote_flow)
        = true ∧
    (backoff_trace sim approx MAX_FLOW_REDUCTION_ATTEMPTS (max base_flow 1)
        (max quote_flow 1)).length ≤ MAX_FLOW_REDUCTION_ATTEMPTS ∧
    (∀ fuel x y k : Nat, k + 1 < (backoff_trace sim approx fuel x y).length →
      (backoff_trace sim approx fuel x y).get? (k + 1) =
        ((backoff_trace sim approx fuel x y).get? k).map
          (fun p => (reduce_flow approx p.1, reduce_flow approx p.2))) ∧
    (∀ f : Nat, 2 ≤ f → reduce_flow approx f < f) ∧
    (∀ f : Nat, 1 ≤ f → 1 ≤ reduce_flow approx f) ∧
    (∀ fuel : Nat, backoff_loop sim approx (fuel + 1) 1 1 = BackoffResult.no_progress 1 1) :=
  ⟨backoff_loop_unhealthy_failure sim approx hsim _ _ _,
    backoff_trace_length sim approx _ _ _,
    fun fuel x y k hk => backoff_trace_get?_succ sim approx hsim fuel x y k hk,
    fun _ hf => reduce_flow_lt approx hf,
    fun _ hf => reduce_flow_pos approx hf,
    backoff_loop_both_one sim approx hsim⟩

/-- C4 witness: the always-unhealthy simulation at requested flows (5, 7) ends in
a permanent failure. -/
theorem c4_backoff_shrinks_to_failure_witness :
    (∀ x y : Nat, (fun _ _ => SimResult.unhealthy) x y = SimResult.unhealthy) ∧
    is_permanent_failure
      (execute_update_flows_with_backoff (fun _ _ => SimResult.unhealthy) approx99 5 7)
        = true :=
  ⟨fun _ _ => rfl,
    (c4_backoff_shrinks_to_failure (fun _ _ => SimResult.unhealthy) approx99 5 7
      (fun _ _ => rfl)).1⟩

lemma settle_eq (out stored inflow PF : Nat)
    (hb : (stored + inflow - out) / PF < U64_MOD)
    (hd : (out - stored - inflow) / PF < U64_MOD) :
    ((if out > stored + inflow then 0 else (stored + inflow - out) / PF) % U64_MOD
      = if out ≤ stored + inflow then (stored + inflow - out) / PF else 0) ∧
    ((if out > stored + inflow then (out - stored - inflow) / PF else 0) % U64_MOD
      = if out ≤ stored + inflow then 0 else (out - stored - inflow) / PF) := by
  by_cases h : out ≤ stored + inflow
  · rw [if_neg (Nat.not_lt.mpr h), if_neg (Nat.not_lt.mpr h), if_pos h, if_pos h]
    exact ⟨Nat.mod_eq_of_lt hb, Nat.zero_mod _⟩
  · have hgt : stored + inflow < out := Nat.lt_of_not_le h
    rw [if_pos hgt, if_pos hgt, if_neg h, if_neg h]
    exact ⟨Nat.zero_mod _, Nat.mod_eq_of_lt hd⟩

/-- C2 counterexample: at precision factor 1 with a stored base balance of
2^64, zero flows and zero elapsed time, the claim's hypotheses hold and the
claimed settled balance is (stored + inflow - outflow) / PF = 2^64, yet the
returned base_balance is 0 because of the final u64 cast, so the claim as
stated fails. -/
theorem c2_counterexample :
    ((⟨U64_MOD, 0, 0, 0, 0, 0, 0, 0, 0, 0⟩ : LiquidityPosition).last_update_slot
        + (zeroBookkeeping.slots_without_trade
          - (⟨U64_MOD, 0, 0, 0, 0, 0, 0, 0, 0, 0⟩ : LiquidityPosition
            ).slots_without_trade_snapshot) ≤ 0) ∧
    ((⟨U64_MOD, 0, 0, 0, 0, 0, 0, 0, 0, 0⟩ : LiquidityPosition).base_per_quote_snapshot
      ≤ reconstruct_integral true 1 1 ⟨0, 0, 0, 1⟩ zeroBookkeeping (fun _ => none) 0) ∧
    ((⟨U64_MOD, 0, 0, 0, 0, 0, 0, 0, 0, 0⟩ : LiquidityPosition).quote_per_base_snapshot
      ≤ reconstruct_integral false 1 1 ⟨0, 0, 0, 1⟩ zeroBookkeeping (fun _ => none) 0) ∧
    (claimed_outflow 1 ⟨U64_MOD, 0, 0, 0, 0, 0, 0, 0, 0, 0⟩ zeroBookkeeping 0 0
      ≤ (⟨U64_MOD, 0, 0, 0, 0, 0, 0, 0, 0, 0⟩ : LiquidityPosition).base_balance
        + claimed_base_inflow 1 1 ⟨U64_MOD, 0, 0, 0, 0, 0, 0, 0, 0, 0⟩ zeroBookkeeping
            ⟨0, 0, 0, 1⟩ (fun _ => none) 0) ∧
    (get_liquidity_position_balances 1 1 ⟨U64_MOD, 0, 0, 0, 0, 0, 0, 0, 0, 0⟩
        zeroBookkeeping ⟨0, 0, 0, 1⟩ (fun _ => none) 0).base_balance
      ≠ ((⟨U64_MOD, 0, 0, 0, 0, 0, 0, 0, 0, 0⟩ : LiquidityPosition).base_balance
          + claimed_base_inflow 1 1 ⟨U64_MOD, 0, 0, 0, 0, 0, 0, 0, 0, 0⟩ zeroBookkeeping
              ⟨0, 0, 0, 1⟩ (fun _ => none) 0
          - claimed_outflow 1 ⟨U64_MOD, 0, 0, 0, 0, 0, 0, 0, 0, 0⟩ zeroBookkeeping 0 0) / 1 := by
  decide

/-- C2 (amended): under the claim's preconditions and provided each settled
quotient fits a u64 (so the final u64 casts do not truncate),
get_liquidity_position_balances settles per side exactly as claimed: with
outflow = PF * (current_slot - last_update_slot - inactive_units) * own flow and
inflow = (reconstructed integral - snapshot) * opposite flow, the side's balance
is (stored + inflow - outflow) / PF and its debt 0 when outflow ≤ stored +
inflow, otherwise the balance is 0 and the debt (outflow - stored - inflow) / PF. -/
theorem c2_settlement_formula (PF AL : Nat) (liquidity_position : LiquidityPosition)
    (bookkeeping : Bookkeeping) (market : Market) (exits : Nat → Option Exits)
    (current_slot : Nat)
    (_h2 : liquidity_position.last_update_slot
        + (bookkeeping.slots_without_trade
          - liquidity_position.slots_without_trade_snapshot) ≤ current_slot)
    (_h3a : liquidity_position.base_per_quote_snapshot
        ≤ reconstruct_integral true PF AL market bookkeeping exits current_slot)
    (_h3b : liquidity_position.quote_per_base_snapshot
        ≤ reconstruct_integral false PF AL market bookkeeping exits current_slot)
    (hfit_bb : (liquidity_position.base_balance
        + claimed_base_inflow PF AL liquidity_position bookkeeping market exits current_slot
        - claimed_outflow PF liquidity_position bookkeeping current_slot
            liquidity_position.base_flow_u64) / PF < U64_MOD)
    (hfit_bd : (claimed_outflow PF liquidity_position bookkeeping current_slot
          liquidity_position.base_flow_u64
        - liquidity_position.base_balance
        - claimed_base_inflow PF AL liquidity_position bookkeeping market exits current_slot)
          / PF < U64_MOD)
    (hfit_qb : (liquidity_position.quote_balance
        + claimed_quote_inflow PF AL liquidity_position bookkeeping market exits current_slot
        - claimed_outflow PF liquidity_position bookkeeping current_slot
            liquidity_position.quote_flow_u64) / PF < U64_MOD)
    (hfit_qd : (claimed_outflow PF liquidity_position bookkeeping current_slot
          liquidity_position.quote_flow_u64
        - liquidity_position.quote_balance
        - claimed_quote_inflow PF AL liquidity_position bookkeeping market exits current_slot)
          / PF < U64_MOD) :
    ((get_liquidity_position_balances PF AL liquidity_position bookkeeping market exits
        current_slot).base_balance =
      if claimed_outflow PF liquidity_position bookkeeping current_slot
          liquidity_position.base_flow_u64
        ≤ liquidity_position.base_balance
          + claimed_base_inflow PF AL liquidity_position bookkeeping market exits current_slot
      then (liquidity_position.base_balance
        + claimed_base_inflow PF AL liquidity_position bookkeeping market exits current_slot
        - claimed_outflow PF liquidity_position bookkeeping current_slot
            liquidity_position.base_flow_u64) / PF
      else 0) ∧
    ((get_liquidity_position_balances PF AL liquidity_position bookkeeping market exits
        current_slot).base_debt =
      if claimed_outflow PF liquidity_position bookkeeping current_slot
          liquidity_position.base_flow_u64
        ≤ liquidity_position.base_balance
          + claimed_base_inflow PF AL liquidity_position bookkeeping market exits current_slot
      then 0
      else (claimed_outflow PF liquidity_position bookkeeping current_slot
          liquidity_position.base_flow_u64
        - liquidity_position.base_balance
        - claimed_base_inflow PF AL liquidity_position bookkeeping market exits current_slot)
          / PF) ∧
    ((get_liquidity_position_balances PF AL liquidity_position bookkeeping market exits
        current_slot).quote_balance =
      if claimed_outflow PF liquidity_position bookkeeping current_slot
          liquidity_position.quote_flow_u64
        ≤ liquidity_position.quote_balance
          + claimed_quote_inflow PF AL liquidity_position bookkeeping market exits current_slot
      then (liquidity_position.quote_balance
        + claimed_quote_inflow PF AL liquidity_position bookkeeping market exits current_slot
        - claimed_outflow PF liquidity_position bookkeeping current_slot
            liquidity_position.quote_flow_u64) / PF
      else 0) ∧
    ((get_liquidity_position_balances PF AL liquidity_position bookkeeping market exits
        current_slot).quote_debt =
      if claimed_outflow PF liquidity_position bookkeeping current_slot
          liquidity_position.quote_flow_u64
        ≤ liquidity_position.quote_balance
          + claimed_quote_inflow PF AL liquidity_position bookkeeping market exits current_slot
      then 0
      else (claimed_outflow PF liquidity_position bookkeeping current_slot
          liquidity_position.quote_flow_u64
        - liquidity_position.quote_balance
        - claimed_quote_inflow PF AL liquidity_position bookkeeping market exits current_slot)
          / PF) := by
  simp only [claimed_outflow, claimed_base_inflow,
    claimed_quote_inflow] at hfit_bb hfit_bd hfit_qb hfit_qd ⊢
  simp only [get_liquidity_position_balances]
  exact ⟨(settle_eq _ _ _ PF hfit_bb hfit_bd).1, (settle_eq _ _ _ PF hfit_bb hfit_bd).2,
    (settle_eq _ _ _ PF hfit_qb hfit_qd).1, (settle_eq _ _ _ PF hfit_qb hfit_qd).2⟩

/-- C2 witness: spec scenario A (stored base balance 10 at precision 1, flow
rate 2, five elapsed slots, no inflow, no inactivity) settles to balance 0 and
debt 0 through the settlement formula. -/
theorem c2_settlement_formula_witness :
    (get_liquidity_position_balances 1 4 ⟨10, 0, 0, 0, 2, 0, 0, 0, 0, 0⟩ zeroBookkeeping
        ⟨0, 0, 0, 1⟩ (fun _ => none) 5).base_balance =
      (if claimed_outflow 1 ⟨10, 0, 0, 0, 2, 0, 0, 0, 0, 0⟩ zeroBookkeeping 5 2
          ≤ (10 : Nat) + claimed_base_inflow 1 4 ⟨10, 0, 0, 0, 2, 0, 0, 0, 0, 0⟩
              zeroBookkeeping ⟨0, 0, 0, 1⟩ (fun _ => none) 5
        then ((10 : Nat) + claimed_base_inflow 1 4 ⟨10, 0, 0, 0, 2, 0, 0, 0, 0, 0⟩
              zeroBookkeeping ⟨0, 0, 0, 1⟩ (fun _ => none) 5
          - claimed_outflow 1 ⟨10, 0, 0, 0, 2, 0, 0, 0, 0, 0⟩ zeroBookkeeping 5 2) / 1
        else 0) :=
  (c2_settlement_formula 1 4 ⟨10, 0, 0, 0, 2, 0, 0, 0, 0, 0⟩ zeroBookkeeping ⟨0, 0, 0, 1⟩
    (fun _ => none) 5 (by decide) (by decide) (by decide) (by decide) (by decide)
    (by decide) (by decide)).1

lemma innerStep_lus (bq : Bool) (PF ESI AL w : Nat) (ex : Option Exits) (s : WalkState)
    (i : Nat) : (innerStep bq PF ESI AL w ex s i).last_update_slot = stepSlot ESI AL w i := by
  unfold innerStep
  split <;> rfl

lemma innerStepChk_eq_some (bq : Bool) (PF ESI AL w : Nat) (ex : Option Exits) (s : WalkState)
    (i : Nat) (hlus : s.last_update_slot ≤ stepSlot ESI AL w i)
    (hex : ¬ (s.market_base_flow = 0 ∨ s.market_quote_flow = 0) →
      exitBaseAmt ex i ≤ s.market_base_flow ∧ exitQuoteAmt ex i ≤ s.market_quote_flow) :
    innerStepChk bq PF ESI AL w ex s i = some (innerStep bq PF ESI AL w ex s i) := by
  simp only [innerStepChk, innerStep, checkedSub]
  rw [if_pos hlus, Option.some_bind]
  by_cases h : s.market_base_flow = 0 ∨ s.market_quote_flow = 0
  · rw [if_pos h, if_pos h]
  · obtain ⟨hbe, hqe⟩ := hex h
    rw [if_neg h, if_neg h, if_pos hbe, Option.some_bind, if_pos hqe, Option.some_bind]

lemma exitsOkStep_eq (bq : Bool) (PF ESI AL w : Nat) (ex : Option Exits)
    (p : Bool × WalkState) (i : Nat) :
    exitsOkStep bq PF ESI AL w ex p i =
      (p.1 && exitsOkCond ex p.2 i, innerStep bq PF ESI AL w ex p.2 i) := rfl

lemma exitsOkCond_bounds (ex : Option Exits) (s : WalkState) (i : Nat)
    (hc : exitsOkCond ex s i = true)
    (h : ¬ (s.market_base_flow = 0 ∨ s.market_quote_flow = 0)) :
    exitBaseAmt ex i ≤ s.market_base_flow ∧ exitQuoteAmt ex i ≤ s.market_quote_flow := by
  unfold exitsOkCond at hc
  rw [if_neg h] at hc
  simpa using hc

lemma exitsOk_fold_snd (bq : Bool) (PF ESI AL w : Nat) (ex : Option Exits) :
    ∀ (l : List Nat) (p : Bool × WalkState),
      (l.foldl (exitsOkStep bq PF ESI AL w ex) p).2 =
        l.foldl (innerStep bq PF ESI AL w ex) p.2 := by
  intro l
  induction l with
  | nil => intro p; rfl
  | cons i t ih =>
    intro p
    rw [List.foldl_cons, List.foldl_cons, ih, exitsOkStep_eq]

lemma exitsOk_fold_false (bq : Bool) (PF ESI AL w : Nat) (ex : Option Exits) :
    ∀ (l : List Nat) (p : Bool × WalkState), p.1 = false →
      (l.foldl (exitsOkStep bq PF ESI AL w ex) p).1 = false := by
  intro l
  induction l with
  | nil => intro p hp; exact hp
  | cons i t ih =>
    intro p hp
    rw [List.foldl_cons]
    exact ih _ (by rw [exitsOkStep_eq, hp, Bool.false_and])

lemma exitsOk_fold_cons_true (bq : Bool) (PF ESI AL w : Nat) (ex : Option Exits)
    (i : Nat) (l : List Nat) (s : WalkState)
    (h : ((i :: l).foldl (exitsOkStep bq PF ESI AL w ex) (true, s)).1 = true) :
    exitsOkCond ex s i = true ∧
      (l.foldl (exitsOkStep bq PF ESI AL w ex)
        (true, innerStep bq PF ESI AL w ex s i)).1 = true := by
  rw [List.foldl_cons] at h
  cases hc : exitsOkCond ex s i with
  | false =>
    exfalso
    have hfalse : (exitsOkStep bq PF ESI AL w ex (true, s) i).1 = false := by
      rw [exitsOkStep_eq, hc]
      rfl
    rw [exitsOk_fold_false bq PF ESI AL w ex l _ hfalse] at h
    exact Bool.false_ne_true h
  | true =>
    refine ⟨rfl, ?_⟩
    have hstep : exitsOkStep bq PF ESI AL w ex (true, s) i =
        (true, innerStep bq PF ESI AL w ex s i) := by
      rw [exitsOkStep_eq, hc]
      rfl
    rwa [hstep] at h

lemma inner_fold_chk (bq : Bool) (PF ESI AL w : Nat) (ex : Option Exits) :
    ∀ (len a : Nat) (s : WalkState),
      (0 < len → s.last_update_slot ≤ stepSlot ESI AL w a) →
      ((List.range' a len).foldl (exitsOkStep bq PF ESI AL w ex) (true, s)).1 = true →
      (List.range' a len).foldlM (innerStepChk bq PF ESI AL w ex) s
        = some ((List.range' a len).foldl (innerStep bq PF ESI AL w ex) s) := by
  intro len
  induction len with
  | zero => intro a s _ _; rfl
  | succ n ih =>
    intro a s hlus hok
    rw [List.range'_succ] at hok ⊢
    obtain ⟨hc, hok2⟩ := exitsOk_fold_cons_true bq PF ESI AL w ex a _ s hok
    have hchk := innerStepChk_eq_some bq PF ESI AL w ex s a (hlus (Nat.succ_pos n))
      (exitsOkCond_bounds ex s a hc)
    rw [List.foldlM_cons, hchk]
    show (some (innerStep bq PF ESI AL w ex s a)).bind
        (fun s1 => List.foldlM (innerStepChk bq PF ESI AL w ex) s1 (List.range' (a + 1) n))
      = some (List.foldl (innerStep bq PF ESI AL w ex) s
          (a :: List.range' (a + 1) n))
    rw [Option.some_bind, List.foldl_cons]
    apply ih (a + 1) (innerStep bq PF ESI AL w ex s a) _ hok2
    intro _
    rw [innerStep_lus]
    unfold stepSlot
    exact Nat.add_le_add_right (Nat.mul_le_mul_right ESI (Nat.le_succ a)) _

lemma inner_fold_lus (bq : Bool) (PF ESI AL w : Nat) (ex : Option Exits) :
    ∀ (len a : Nat) (s : WalkState), 0 < len →
      ((List.range' a len).foldl (innerStep bq PF ESI AL w ex) s).last_update_slot
        = stepSlot ESI AL w (a + len - 1) := by
  intro len
  induction len with
  | zero => intro a s h; exact absurd h (Nat.lt_irrefl 0)
  | succ n ih =>
    intro a s _
    rw [List.range'_succ, List.foldl_cons]
    rcases Nat.eq_zero_or_pos n with hn | hn
    · subst hn
      show (List.foldl (innerStep bq PF ESI AL w ex)
        (innerStep bq PF ESI AL w ex s a) []).last_update_slot = _
      rw [List.foldl_nil, innerStep_lus]
      congr 1
    · rw [ih (a + 1) _ hn]
      congr 1
      omega

lemma idx_mul_le (x AL ESI : Nat) : x / AL / ESI * ESI * AL ≤ x := by
  rw [Nat.div_div_eq_div_mul, Nat.mul_assoc, Nat.mul_comm ESI AL]
  exact Nat.div_mul_le_self x (AL * ESI)

lemma idx_lt_succ_mul (x AL ESI : Nat) (hAL : 1 ≤ AL) (hESI : 1 ≤ ESI) :
    x < (x / AL / ESI + 1) * ESI * AL := by
  rw [Nat.div_div_eq_div_mul]
  have h0 : 0 < AL * ESI := Nat.mul_pos hAL hESI
  calc x < x / (AL * ESI) * (AL * ESI) + AL * ESI := Nat.lt_div_mul_add h0
    _ = (x / (AL * ESI) + 1) * ESI * AL := by ring

lemma pos_of_idx_lt {bk_lus cur AL ESI : Nat}
    (h : bk_lus / AL / ESI < cur / AL / ESI) : 1 ≤ AL ∧ 1 ≤ ESI := by
  constructor
  · by_contra hc
    push_neg at hc
    interval_cases AL
    simp [Nat.div_zero] at h
  · by_contra hc
    push_neg at hc
    interval_cases ESI
    simp [Nat.div_zero] at h

lemma start_slot_gt (bk_lus ESI AL lastIdx : Nat) (hESI : 1 ≤ ESI)
    (hIdx : lastIdx * ESI * AL ≤ bk_lus) :
    bk_lus < stepSlot ESI AL lastIdx ((bk_lus - lastIdx * ESI * AL) / ESI + 1) := by
  unfold stepSlot
  have hlt : bk_lus - lastIdx * ESI * AL
      < ((bk_lus - lastIdx * ESI * AL) / ESI + 1) * ESI := by
    calc bk_lus - lastIdx * ESI * AL
        < (bk_lus - lastIdx * ESI * AL) / ESI * ESI + ESI := Nat.lt_div_mul_add hESI
      _ = ((bk_lus - lastIdx * ESI * AL) / ESI + 1) * ESI := by ring
  omega

lemma windowStartIdxChk_eq (ESI AL lastIdx bk_lus w : Nat)
    (hIdx : lastIdx * ESI * AL ≤ bk_lus) :
    windowStartIdxChk ESI AL lastIdx bk_lus w = some (windowStartIdx ESI AL lastIdx bk_lus w) := by
  unfold windowStartIdxChk windowStartIdx checkedSub
  by_cases hw : w = lastIdx
  · rw [if_pos hw, if_pos hw, if_pos hIdx]
    rfl
  · rw [if_neg hw, if_neg hw]

lemma windowStopIdxChk_eq (ESI AL curIdx curSlot w : Nat)
    (hIdx : curIdx * ESI * AL ≤ curSlot) (hAL : w ≠ curIdx → 1 ≤ AL) :
    windowStopIdxChk ESI AL curIdx curSlot w = some (windowStopIdx ESI AL curIdx curSlot w) := by
  unfold windowStopIdxChk windowStopIdx checkedSub
  by_cases hw : w = curIdx
  · rw [if_pos hw, if_pos hw, if_pos hIdx]
    rfl
  · rw [if_neg hw, if_neg hw, if_pos (hAL hw)]

lemma finalSegChk_eq_some (bq : Bool) (PF current_slot : Nat) (s : WalkState)
    (h : s.last_update_slot ≤ current_slot) :
    finalSegChk bq PF current_slot s = some (finalSeg bq PF current_slot s) := by
  simp only [finalSegChk, finalSeg, checkedSub]
  rw [if_pos h, Option.some_bind]
  split <;> rfl

lemma windowBody_chk_eq (bq : Bool) (PF ESI AL lastIdx curIdx bk_lus cur : Nat)
    (exits : Nat → Option Exits) (s : WalkState) (w : Nat)
    (hESI : 1 ≤ ESI) (hcur : bk_lus ≤ cur)
    (hLdef : lastIdx = bk_lus / AL / ESI) (hCdef : curIdx = cur / AL / ESI)
    (hwl : lastIdx ≤ w) (hwc : w ≤ curIdx)
    (hent : s.last_update_slot ≤ if w = lastIdx then bk_lus else w * ESI * AL)
    (hok : ((rangeIncl (windowStartIdx ESI AL lastIdx bk_lus w)
        (windowStopIdx ESI AL curIdx cur w)).foldl
        (exitsOkStep bq PF ESI AL w (exits w)) (true, s)).1 = true) :
    windowBodyChk bq PF ESI AL lastIdx curIdx bk_lus cur exits s w
      = some (windowBody bq PF ESI AL lastIdx curIdx bk_lus cur exits s w)
    ∧ (w < curIdx →
        (windowBody bq PF ESI AL lastIdx curIdx bk_lus cur exits s w).last_update_slot
          ≤ (w + 1) * ESI * AL) := by
  have hbaseL : lastIdx * ESI * AL ≤ bk_lus := by
    rw [hLdef]; exact idx_mul_le bk_lus AL ESI
  have hbaseC : curIdx * ESI * AL ≤ cur := by
    rw [hCdef]; exact idx_mul_le cur AL ESI
  have hAL : w ≠ curIdx → 1 ≤ AL := by
    intro hne
    have hlt : lastIdx < curIdx := Nat.lt_of_le_of_lt hwl (Nat.lt_of_le_of_ne hwc hne)
    rw [hLdef, hCdef] at hlt
    exact (pos_of_idx_lt hlt).1
  set a := windowStartIdx ESI AL lastIdx bk_lus w with hadef
  set b := windowStopIdx ESI AL curIdx cur w with hbdef
  have hstart : windowStartIdxChk ESI AL lastIdx bk_lus w = some a := by
    rw [hadef]; exact windowStartIdxChk_eq ESI AL lastIdx bk_lus w hbaseL
  have hstop : windowStopIdxChk ESI AL curIdx cur w = some b := by
    rw [hbdef]; exact windowStopIdxChk_eq ESI AL curIdx cur w hbaseC hAL
  have hlus0 : 0 < b + 1 - a → s.last_update_slot ≤ stepSlot ESI AL w a := by
    intro _
    by_cases hwL : w = lastIdx
    · have hgt : bk_lus < stepSlot ESI AL w a := by
        rw [hadef]
        unfold windowStartIdx
        rw [if_pos hwL, hwL]
        exact start_slot_gt bk_lus ESI AL lastIdx hESI hbaseL
      rw [if_pos hwL] at hent
      omega
    · have ha0 : a = 0 := by
        rw [hadef]; unfold windowStartIdx; rw [if_neg hwL]
      rw [if_neg hwL] at hent
      rw [ha0]
      unfold stepSlot
      omega
  have hrange : rangeIncl a b = List.range' a (b + 1 - a) := rfl
  have hok2 : ((List.range' a (b + 1 - a)).foldl
      (exitsOkStep bq PF ESI AL w (exits w)) (true, s)).1 = true := by
    rw [← hrange]; exact hok
  have hinner : (rangeIncl a b).foldlM (innerStepChk bq PF ESI AL w (exits w)) s
      = some ((rangeIncl a b).foldl (innerStep bq PF ESI AL w (exits w)) s) := by
    rw [hrange]
    exact inner_fold_chk bq PF ESI AL w (exits w) (b + 1 - a) a s hlus0 hok2
  set s1 := (rangeIncl a b).foldl (innerStep bq PF ESI AL w (exits w)) s with hs1
  have hs1rep : (b + 1 - a = 0 ∧ s1 = s) ∨
      (a ≤ b ∧ s1.last_update_slot = stepSlot ESI AL w b) := by
    rcases Nat.eq_zero_or_pos (b + 1 - a) with h0 | hpos
    · left
      refine ⟨h0, ?_⟩
      rw [hs1, hrange, h0]
      rfl
    · right
      refine ⟨by omega, ?_⟩
      rw [hs1, hrange,
        inner_fold_lus bq PF ESI AL w (exits w) (b + 1 - a) a s hpos]
      congr 1
      omega
  have hs1lus_cur : w = curIdx → s1.last_update_slot ≤ cur := by
    intro hwC
    rcases hs1rep with ⟨_, hss⟩ | ⟨hab, hlus⟩
    · rw [hss]
      by_cases hwL : w = lastIdx
      · rw [if_pos hwL] at hent
        omega
      · rw [if_neg hwL] at hent
        have hwb : w * ESI * AL ≤ cur := by rw [hwC]; exact hbaseC
        omega
    · rw [hlus]
      have hb : b = (cur - curIdx * ESI * AL) / ESI := by
        rw [hbdef]; unfold windowStopIdx; rw [if_pos hwC]
      rw [hb]
      unfold stepSlot
      have h1 : (cur - curIdx * ESI * AL) / ESI * ESI ≤ cur - curIdx * ESI * AL :=
        Nat.div_mul_le_self _ _
      rw [hwC]
      omega
  have hs1lus_next : w < curIdx → s1.last_update_slot ≤ (w + 1) * ESI * AL := by
    intro hlt
    have hneC : w ≠ curIdx := Nat.ne_of_lt hlt
    have hAL1 : 1 ≤ AL := hAL hneC
    rcases hs1rep with ⟨_, hss⟩ | ⟨hab, hlus⟩
    · rw [hss]
      by_cases hwL : w = lastIdx
      · rw [if_pos hwL] at hent
        have hlt2 : bk_lus < (lastIdx + 1) * ESI * AL := by
          rw [hLdef]
          exact idx_lt_succ_mul bk_lus AL ESI hAL1 hESI
        rw [hwL]
        omega
      · rw [if_neg hwL] at hent
        have hmono : w * ESI * AL ≤ (w + 1) * ESI * AL :=
          Nat.mul_le_mul_right _ (Nat.mul_le_mul_right _ (Nat.le_succ w))
        omega
    · rw [hlus]
      have hb : b = AL - 1 := by
        rw [hbdef]; unfold windowStopIdx; rw [if_neg hneC]
      rw [hb]
      unfold stepSlot
      have h1 : (AL - 1) * ESI ≤ ESI * AL := by
        calc (AL - 1) * ESI ≤ AL * ESI := Nat.mul_le_mul_right _ (Nat.sub_le _ _)
          _ = ESI * AL := Nat.mul_comm _ _
      have h2 : (w + 1) * ESI * AL = w * ESI * AL + ESI * AL := by ring
      omega
  constructor
  · simp only [windowBodyChk, windowBody]
    rw [← hadef, ← hbdef, hstart, Option.some_bind, hstop, Option.some_bind, hinner,
      Option.some_bind, ← hs1]
    by_cases hwC : w = curIdx
    · rw [if_pos hwC, if_pos hwC]
      exact finalSegChk_eq_some bq PF cur s1 (hs1lus_cur hwC)
    · rw [if_neg hwC, if_neg hwC]
  · intro hlt
    simp only [windowBody]
    rw [← hadef, ← hbdef, ← hs1, if_neg (Nat.ne_of_lt hlt)]
    exact hs1lus_next hlt

lemma exitsOkWindow_fst (bq : Bool) (PF ESI AL lastIdx curIdx bk_lus cur : Nat)
    (exits : Nat → Option Exits) (p : Bool × WalkState) (w : Nat) :
    (exitsOkWindow bq PF ESI AL lastIdx curIdx bk_lus cur exits p w).1 =
      ((rangeIncl (windowStartIdx ESI AL lastIdx bk_lus w)
        (windowStopIdx ESI AL curIdx cur w)).foldl
        (exitsOkStep bq PF ESI AL w (exits w)) p).1 := by
  simp only [exitsOkWindow]
  split <;> rfl

lemma exitsOkWindow_snd (bq : Bool) (PF ESI AL lastIdx curIdx bk_lus cur : Nat)
    (exits : Nat → Option Exits) (p : Bool × WalkState) (w : Nat) :
    (exitsOkWindow bq PF ESI AL lastIdx curIdx bk_lus cur exits p w).2 =
      windowBody bq PF ESI AL lastIdx curIdx bk_lus cur exits p.2 w := by
  simp only [exitsOkWindow, windowBody]
  split
  · simp only [exitsOk_fold_snd]
  · exact exitsOk_fold_snd bq PF ESI AL w (exits w) _ p

lemma exitsOkWin_fold_false (bq : Bool) (PF ESI AL lastIdx curIdx bk_lus cur : Nat)
    (exits : Nat → Option Exits) :
    ∀ (ws : List Nat) (p : Bool × WalkState), p.1 = false →
      (ws.foldl (exitsOkWindow bq PF ESI AL lastIdx curIdx bk_lus cur exits) p).1 = false := by
  intro ws
  induction ws with
  | nil => intro p hp; exact hp
  | cons w t ih =>
    intro p hp
    rw [List.foldl_cons]
    apply ih
    rw [exitsOkWindow_fst]
    exact exitsOk_fold_false bq PF ESI AL w (exits w) _ p hp

lemma exitsOkWin_fold_cons_true (bq : Bool) (PF ESI AL lastIdx curIdx bk_lus cur : Nat)
    (exits : Nat → Option Exits) (w : Nat) (ws : List Nat) (s : WalkState)
    (h : ((w :: ws).foldl (exitsOkWindow bq PF ESI AL lastIdx curIdx bk_lus cur exits)
      (true, s)).1 = true) :
    ((rangeIncl (windowStartIdx ESI AL lastIdx bk_lus w)
        (windowStopIdx ESI AL curIdx cur w)).foldl
        (exitsOkStep bq PF ESI AL w (exits w)) (true, s)).1 = true ∧
    (ws.foldl (exitsOkWindow bq PF ESI AL lastIdx curIdx bk_lus cur exits)
      (true, windowBody bq PF ESI AL lastIdx curIdx bk_lus cur exits s w)).1 = true := by
  rw [List.foldl_cons] at h
  cases hfst : (exitsOkWindow bq PF ESI AL lastIdx curIdx bk_lus cur exits (true, s) w).1 with
  | false =>
    exfalso
    rw [exitsOkWin_fold_false bq PF ESI AL lastIdx curIdx bk_lus cur exits ws _ hfst] at h
    exact Bool.false_ne_true h
  | true =>
    constructor
    · rw [exitsOkWindow_fst] at hfst
      exact hfst
    · have heta : exitsOkWindow bq PF ESI AL lastIdx curIdx bk_lus cur exits (true, s) w =
          ((exitsOkWindow bq PF ESI AL lastIdx curIdx bk_lus cur exits (true, s) w).1,
           (exitsOkWindow bq PF ESI AL lastIdx curIdx bk_lus cur exits (true, s) w).2) := rfl
      rw [heta, hfst, exitsOkWindow_snd] at h
      exact h

lemma outer_fold_chk (bq : Bool) (PF ESI AL lastIdx curIdx bk_lus cur : Nat)
    (exits : Nat → Option Exits)
    (hESI : 1 ≤ ESI) (hcur : bk_lus ≤ cur)
    (hLdef : lastIdx = bk_lus / AL / ESI) (hCdef : curIdx = cur / AL / ESI) :
    ∀ (n w0 : Nat) (s : WalkState),
      lastIdx ≤ w0 → w0 + n = curIdx + 1 →
      (s.last_update_slot ≤ if w0 = lastIdx then bk_lus else w0 * ESI * AL) →
      ((List.range' w0 n).foldl
        (exitsOkWindow bq PF ESI AL lastIdx curIdx bk_lus cur exits) (true, s)).1 = true →
      (List.range' w0 n).foldlM
        (windowBodyChk bq PF ESI AL lastIdx curIdx bk_lus cur exits) s
        = some ((List.range' w0 n).foldl
            (windowBody bq PF ESI AL lastIdx curIdx bk_lus cur exits) s) := by
  intro n
  induction n with
  | zero => intro w0 s _ _ _ _; rfl
  | succ m ih =>
    intro w0 s hw0 hsum hent hok
    rw [List.range'_succ] at hok ⊢
    have hwc : w0 ≤ curIdx := by omega
    obtain ⟨hok1, hok2⟩ := exitsOkWin_fold_cons_true bq PF ESI AL lastIdx curIdx bk_lus cur
      exits w0 _ s hok
    obtain ⟨hbody, hnext⟩ := windowBody_chk_eq bq PF ESI AL lastIdx curIdx bk_lus cur exits
      s w0 hESI hcur hLdef hCdef hw0 hwc hent hok1
    rw [List.foldlM_cons, hbody]
    show (some (windowBody bq PF ESI AL lastIdx curIdx bk_lus cur exits s w0)).bind
        (fun s2 => List.foldlM (windowBodyChk bq PF ESI AL lastIdx curIdx bk_lus cur exits)
          s2 (List.range' (w0 + 1) m))
      = some (List.foldl (windowBody bq PF ESI AL lastIdx curIdx bk_lus cur exits) s
          (w0 :: List.range' (w0 + 1) m))
    rw [Option.some_bind, List.foldl_cons]
    rcases Nat.eq_zero_or_pos m with hm | hm
    · subst hm
      rfl
    · apply ih (w0 + 1) _ (by omega) (by omega) _ hok2
      have hne : w0 + 1 ≠ lastIdx := by omega
      rw [if_neg hne]
      exact hnext (by omega)

lemma reconstruct_integral_chk_eq (bq : Bool) (PF AL : Nat) (market : Market)
    (bookkeeping : Bookkeeping) (exits : Nat → Option Exits) (current_slot : Nat)
    (hESI : 1 ≤ market.end_slot_interval)
    (hcur : bookkeeping.last_update_slot ≤ current_slot)
    (hok : exits_within_flows bq PF AL market bookkeeping exits current_slot = true) :
    reconstruct_integral_chk bq PF AL market bookkeeping exits current_slot
      = some (reconstruct_integral bq PF AL market bookkeeping exits current_slot) := by
  simp only [reconstruct_integral_chk, reconstruct_integral]
  simp only [exits_within_flows] at hok
  have hle : bookkeeping.last_update_slot / AL / market.end_slot_interval
      ≤ current_slot / AL / market.end_slot_interval :=
    Nat.div_le_div_right (Nat.div_le_div_right hcur)
  rw [show rangeIncl (bookkeeping.last_update_slot / AL / market.end_slot_interval)
      (current_slot / AL / market.end_slot_interval)
    = List.range' (bookkeeping.last_update_slot / AL / market.end_slot_interval)
      (current_slot / AL / market.end_slot_interval + 1
        - bookkeeping.last_update_slot / AL / market.end_slot_interval) from rfl]
  rw [outer_fold_chk bq PF market.end_slot_interval AL
    (bookkeeping.last_update_slot / AL / market.end_slot_interval)
    (current_slot / AL / market.end_slot_interval)
    bookkeeping.last_update_slot current_slot exits hESI hcur rfl rfl
    (current_slot / AL / market.end_slot_interval + 1
      - bookkeeping.last_update_slot / AL / market.end_slot_interval)
    (bookkeeping.last_update_slot / AL / market.end_slot_interval)
    _ (Nat.le_refl _) (by omega) (by rw [if_pos rfl]) hok]
  rfl

/-- C10 counterexample: at precision 1, ARRAY_LENGTH 10, end_slot_interval 1,
an all-zero position, a bookkeeping checkpoint at slot 7 and current slot 3
(earlier than the checkpoint), all four preconditions listed by the claim hold,
yet the fully subtraction-checked reconciliation fails (the final-segment
subtraction current_slot - last_update_slot underflows), so the claimed
precondition list is insufficient. -/
theorem c10_counterexample :
    (zeroPosition.slots_without_trade_snapshot
        ≤ (⟨0, 0, 7, 0⟩ : Bookkeeping).slots_without_trade) ∧
    (zeroPosition.last_update_slot
        + ((⟨0, 0, 7, 0⟩ : Bookkeeping).slots_without_trade
          - zeroPosition.slots_without_trade_snapshot) ≤ 3) ∧
    (zeroPosition.base_per_quote_snapshot
        ≤ reconstruct_integral true 1 10 ⟨0, 1, 1, 1⟩ ⟨0, 0, 7, 0⟩ (fun _ => none) 3) ∧
    (zeroPosition.quote_per_base_snapshot
        ≤ reconstruct_integral false 1 10 ⟨0, 1, 1, 1⟩ ⟨0, 0, 7, 0⟩ (fun _ => none) 3) ∧
    (exits_within_flows true 1 10 ⟨0, 1, 1, 1⟩ ⟨0, 0, 7, 0⟩ (fun _ => none) 3 = true) ∧
    (exits_within_flows false 1 10 ⟨0, 1, 1, 1⟩ ⟨0, 0, 7, 0⟩ (fun _ => none) 3 = true) ∧
    get_liquidity_position_balances_chk 1 10 zeroPosition ⟨0, 0, 7, 0⟩ ⟨0, 1, 1, 1⟩
      (fun _ => none) 3 = none := by
  decide

/-- C10 (amended): with the claim's preconditions — snapshot inactivity counter
at most the bookkeeping counter, current slot at least last_update_slot plus the
inactive units, reconstructed integrals at least the snapshots, and every step's
recorded exits at most the running aggregate flows — strengthened by the two
missing preconditions current_slot ≥ bookkeeping.last_update_slot and
end_slot_interval ≥ 1, every subtraction performed by
get_liquidity_position_balances is non-negative: the fully subtraction-checked
variant succeeds and returns exactly the unchecked result. -/
theorem c10_no_underflow (PF AL : Nat) (liquidity_position : LiquidityPosition)
    (bookkeeping : Bookkeeping) (market : Market) (exits : Nat → Option Exits)
    (current_slot : Nat)
    (h1 : liquidity_position.slots_without_trade_snapshot ≤ bookkeeping.slots_without_trade)
    (h2 : liquidity_position.last_update_slot
        + (bookkeeping.slots_without_trade - liquidity_position.slots_without_trade_snapshot)
        ≤ current_slot)
    (h3a : liquidity_position.base_per_quote_snapshot
        ≤ reconstruct_integral true PF AL market bookkeeping exits current_slot)
    (h3b : liquidity_position.quote_per_base_snapshot
        ≤ reconstruct_integral false PF AL market bookkeeping exits current_slot)
    (h4a : exits_within_flows true PF AL market bookkeeping exits current_slot = true)
    (h4b : exits_within_flows false PF AL market bookkeeping exits current_slot = true)
    (h5 : bookkeeping.last_update_slot ≤ current_slot)
    (h6 : 1 ≤ market.end_slot_interval) :
    get_liquidity_position_balances_chk PF AL liquidity_position bookkeeping market exits
        current_slot
      = some (get_liquidity_position_balances PF AL liquidity_position bookkeeping market
          exits current_slot) := by
  have hrecT := reconstruct_integral_chk_eq true PF AL market bookkeeping exits
    current_slot h6 h5 h4a
  have hrecF := reconstruct_integral_chk_eq false PF AL market bookkeeping exits
    current_slot h6 h5 h4b
  simp only [get_liquidity_position_balances_chk, get_liquidity_position_balances, checkedSub]
  rw [if_pos h1, Option.some_bind,
    if_pos (show liquidity_position.last_update_slot ≤ current_slot by omega),
    Option.some_bind,
    if_pos (show bookkeeping.slots_without_trade
        - liquidity_position.slots_without_trade_snapshot
      ≤ current_slot - liquidity_position.last_update_slot by omega),
    Option.some_bind, hrecT, Option.some_bind, hrecF, Option.some_bind,
    if_pos h3a, Option.some_bind, if_pos h3b, Option.some_bind]
  set outB := PF * (current_slot - liquidity_position.last_update_slot
      - (bookkeeping.slots_without_trade - liquidity_position.slots_without_trade_snapshot))
    * liquidity_position.base_flow_u64 with houtB
  set outQ := PF * (current_slot - liquidity_position.last_update_slot
      - (bookkeeping.slots_without_trade - liquidity_position.slots_without_trade_snapshot))
    * liquidity_position.quote_flow_u64 with houtQ
  set inB := (reconstruct_integral true PF AL market bookkeeping exits current_slot
      - liquidity_position.base_per_quote_snapshot)
    * liquidity_position.quote_flow_u64 with hinB
  set inQ := (reconstruct_integral false PF AL market bookkeeping exits current_slot
      - liquidity_position.quote_per_base_snapshot)
    * liquidity_position.base_flow_u64 with hinQ
  by_cases hcb : outB > liquidity_position.base_balance + inB
  · rw [if_pos hcb, if_pos hcb, if_pos hcb,
      if_pos (show liquidity_position.base_balance ≤ outB by omega), Option.some_bind,
      if_pos (show inB ≤ outB - liquidity_position.base_balance by omega)]
    by_cases hcq : outQ > liquidity_position.quote_balance + inQ
    · rw [if_pos hcq, if_pos hcq, if_pos hcq,
        if_pos (show liquidity_position.quote_balance ≤ outQ by omega), Option.some_bind,
        if_pos (show inQ ≤ outQ - liquidity_position.quote_balance by omega)]
      rfl
    · rw [if_neg hcq, if_neg hcq, if_neg hcq,
        if_pos (show outQ ≤ liquidity_position.quote_balance + inQ by omega)]
      rfl
  · rw [if_neg hcb, if_neg hcb, if_neg hcb,
      if_pos (show outB ≤ liquidity_position.base_balance + inB by omega)]
    by_cases hcq : outQ > liquidity_position.quote_balance + inQ
    · rw [if_pos hcq, if_pos hcq, if_pos hcq,
        if_pos (show liquidity_position.quote_balance ≤ outQ by omega), Option.some_bind,
        if_pos (show inQ ≤ outQ - liquidity_position.quote_balance by omega)]
      rfl
    · rw [if_neg hcq, if_neg hcq, if_neg hcq,
        if_pos (show outQ ≤ liquidity_position.quote_balance + inQ by omega)]
      rfl

/-- C10 witness: at a concrete small input with one walked exit step the checked
reconciliation succeeds and agrees with the unchecked one. -/
theorem c10_no_underflow_witness :
    get_liquidity_position_balances_chk 1 2 zeroPosition zeroBookkeeping ⟨0, 4, 4, 1⟩
        (fun _ => some { base_exits := fun _ => 1, quote_exits := fun _ => 1 }) 3
      = some (get_liquidity_position_balances 1 2 zeroPosition zeroBookkeeping ⟨0, 4, 4, 1⟩
          (fun _ => some { base_exits := fun _ => 1, quote_exits := fun _ => 1 }) 3) :=
  c10_no_underflow 1 2 zeroPosition zeroBookkeeping ⟨0, 4, 4, 1⟩
    (fun _ => some { base_exits := fun _ => 1, quote_exits := fun _ => 1 }) 3
    (by decide) (by decide) (by decide) (by decide) (by decide) (by decide)
    (by decide) (by decide)

end Twob
